import Mathlib

/-!
Shallow embedding of `src/tools_agent/utils/openalex.py` (OpenAlex tool module):
the query builders, the abstract reconstructor and the response normalizers of
the three operations `search_works_openalex`, `get_work_details_openalex` and
`search_authors_openalex`, together with theorems settling the specification
claims about them.

Python-level behaviour is modelled explicitly: machine exceptions become the
`PyErr` error type of `Except`, Python truthiness and negative list indexing
are spelled out, and dictionaries become insertion-ordered association lists.
-/

set_option autoImplicit false

namespace OpenAlex

/-- Kinds of Python exceptions the embedded code can raise. -/
inductive PyErr where
  | indexError
  | valueError
  | keyError
  | typeError
  | attributeError
deriving DecidableEq, Repr

/-- Rendering of a caught exception, used after the marker string
`Error accessing OpenAlex API: ` (the claims only constrain the marker,
not the message text, so a canonical message per kind suffices). -/
def pyErrStr : PyErr → String
  | .indexError => "list assignment index out of range"
  | .valueError => "max() arg is an empty sequence"
  | .keyError => "0"
  | .typeError => "unsupported operand type"
  | .attributeError => "object has no attribute"

/-- Python `str.isspace` on one character, the class `str.split()` and
`str.strip()` break on. -/
def pyIsSpace (c : Char) : Bool :=
  c = ' ' || c = '\t' || c = '\n' || c = '\r' || c = '\x0b' || c = '\x0c'

/-- Python `s.strip()`: drop leading and trailing whitespace. -/
def pyStrip (s : String) : String :=
  String.mk (((s.data.dropWhile pyIsSpace).reverse.dropWhile pyIsSpace).reverse)

/-- One step of splitting a character stream at every whitespace character,
keeping empty fields; folding it over the text yields the fields between
whitespace characters. -/
def splitStep (c : Char) (acc : List (List Char)) : List (List Char) :=
  if pyIsSpace c then [] :: acc
  else
    match acc with
    | [] => [[c]]
    | t :: ts => (c :: t) :: ts

/-- Split a character list at every whitespace character, keeping empties. -/
def splitAll (cs : List Char) : List (List Char) :=
  cs.foldr splitStep [[]]

/-- Python `s.split()` (no separator): maximal runs of non-whitespace
characters, i.e. the non-empty fields of `splitAll`. -/
def pySplitWS (s : String) : List String :=
  ((splitAll s.data).filter (fun t => !t.isEmpty)).map (fun t => String.mk t)

/-- Python `sep.join(strings)`. -/
def pyJoin (sep : String) : List String → String
  | [] => ""
  | [w] => w
  | w :: ws => w ++ sep ++ pyJoin sep ws

/-- Monadic map in `Except PyErr`, written out structurally so that each
step's equation is definitional (Python's comprehensions and loops
evaluate left to right and stop at the first exception). -/
def mapME {α β : Type} (f : α → Except PyErr β) : List α → Except PyErr (List β)
  | [] => Except.ok []
  | a :: as => do
    let b ← f a
    let bs ← mapME f as
    pure (b :: bs)

/-- Monadic left fold in `Except PyErr`, structural for the same reason. -/
def foldlME {α β : Type} (f : β → α → Except PyErr β) : β → List α → Except PyErr β
  | b, [] => Except.ok b
  | b, a :: as => do
    let b' ← f b a
    foldlME f b' as

/-- Python `max` over a list of integers: `ValueError` on an empty sequence. -/
def listMaxInt : List Int → Except PyErr Int
  | [] => Except.error PyErr.valueError
  | x :: xs => Except.ok (xs.foldl max x)

/-- The `max(max(positions) for positions in d.values())` of
`reconstruct_abstract`: maximum over the per-word maxima, raising
`ValueError` when the index, or one of its position lists, is empty. -/
def maxPosition : List (String × List Int) → Except PyErr Int
  | [] => Except.error PyErr.valueError
  | e :: es => do
    let m0 ← listMaxInt e.2
    foldlME (fun acc f => do
      let m ← listMaxInt f.2
      pure (max acc m)) m0 es

/-- Python list assignment `l[p] = w` with its negative-index semantics:
a negative `p` counts from the end, and an index out of range on either
side raises `IndexError`. -/
def pySetIdx (l : List String) (p : Int) (w : String) : Except PyErr (List String) :=
  if 0 ≤ p then
    if p < (l.length : Int) then Except.ok (l.set p.toNat w)
    else Except.error PyErr.indexError
  else
    if 0 ≤ p + (l.length : Int) then Except.ok (l.set (p + (l.length : Int)).toNat w)
    else Except.error PyErr.indexError

/-- The inner loop of `reconstruct_abstract`: write `w` into every listed
slot, skipping positions `p` with `p >= len(words)` (the defensive
`if position < len(words)` bound check of the source). -/
def placeWord (ws : List String) (w : String) (ps : List Int) : Except PyErr (List String) :=
  foldlME (fun ws p => if p < (ws.length : Int) then pySetIdx ws p w else pure ws) ws ps

/-- The outer loop of `reconstruct_abstract` over the (insertion-ordered)
word-to-positions mapping. -/
def placeAll (idx : List (String × List Int)) (ws : List String) : Except PyErr (List String) :=
  foldlME (fun ws e => placeWord ws e.1 e.2) ws idx

/-- `reconstruct_abstract(abstract_inverted_index)` of the source.  The
argument is optional because Python callers may pass `None`, which the
falsiness guard `if not abstract_inverted_index` maps to `""` exactly like
the empty mapping.  Raised exceptions surface as `Except.error`. -/
def reconstruct_abstract (o : Option (List (String × List Int))) : Except PyErr String :=
  match o with
  | none => Except.ok ""
  | some idx =>
    if idx.isEmpty then Except.ok ""
    else do
      let m ← maxPosition idx
      let init := List.replicate (m + 1).toNat ""
      let slots ← placeAll idx init
      let abstract := pyJoin " " slots
      Except.ok (pyJoin " " (pySplitWS abstract))

/-! JSON values and Python dynamic operations on them. -/

/-- Untyped JSON values as the remote service returns them.  Numbers are
modelled as rationals (Python distinguishes int and float, but every
numeric comparison and rendering the module performs is value-based). -/
inductive JVal where
  | null
  | bool (b : Bool)
  | num (q : ℚ)
  | str (s : String)
  | arr (xs : List JVal)
  | obj (fields : List (String × JVal))

/-- Python truthiness of a JSON value (`if v:`). -/
def jTruthy : JVal → Bool
  | .null => false
  | .bool b => b
  | .num q => q ≠ 0
  | .str s => s ≠ ""
  | .arr xs => !xs.isEmpty
  | .obj fs => !fs.isEmpty

/-- Python `v.get(k, default)`: only dictionaries have `.get`; calling it
on any other value raises `AttributeError`.  Keys of a Python dict are
unique, so first match in the association list is the binding. -/
def jget (v : JVal) (k : String) (d : JVal) : Except PyErr JVal :=
  match v with
  | .obj fs => Except.ok (((fs.find? (fun e => e.1 = k)).map (fun e => e.2)).getD d)
  | _ => Except.error PyErr.attributeError

/-- Python subscription `v[i]` with an integer index: lists index with
negative wrap-around, strings yield one-character strings, dictionaries
look the integer up as a key (the module's dicts have string keys, so
this raises `KeyError`), everything else raises `TypeError`. -/
def pyIndex (v : JVal) (i : Int) : Except PyErr JVal :=
  match v with
  | .arr xs =>
    if 0 ≤ i then
      if i < (xs.length : Int) then Except.ok (xs.getD i.toNat .null)
      else Except.error PyErr.indexError
    else
      if 0 ≤ i + (xs.length : Int) then Except.ok (xs.getD (i + (xs.length : Int)).toNat .null)
      else Except.error PyErr.indexError
  | .str s =>
    if 0 ≤ i then
      if i < (s.length : Int) then Except.ok (JVal.str (String.mk [s.data.getD i.toNat ' ']))
      else Except.error PyErr.indexError
    else
      if 0 ≤ i + (s.length : Int) then
        Except.ok (JVal.str (String.mk [s.data.getD (i + (s.length : Int)).toNat ' ']))
      else Except.error PyErr.indexError
  | .obj _ => Except.error PyErr.keyError
  | _ => Except.error PyErr.typeError

/-- Python slicing `v[:n]` for `n ≥ 0`: a plain truncation on lists and
strings, `TypeError` elsewhere. -/
def pySliceTake (v : JVal) (n : Nat) : Except PyErr JVal :=
  match v with
  | .arr xs => Except.ok (JVal.arr (xs.take n))
  | .str s => Except.ok (JVal.str (String.mk (s.data.take n)))
  | _ => Except.error PyErr.typeError

/-- Python iteration `for x in v`: lists yield elements, strings yield
one-character strings, dictionaries yield their keys, everything else
raises `TypeError`. -/
def pyIter : JVal → Except PyErr (List JVal)
  | .arr xs => Except.ok xs
  | .str s => Except.ok (s.data.map (fun c => JVal.str (String.mk [c])))
  | .obj fs => Except.ok (fs.map (fun e => JVal.str e.1))
  | _ => Except.error PyErr.typeError

/-- Python `len(v)`: defined for lists, strings and dictionaries. -/
def pyLen : JVal → Except PyErr Nat
  | .arr xs => Except.ok xs.length
  | .str s => Except.ok s.length
  | .obj fs => Except.ok fs.length
  | _ => Except.error PyErr.typeError

/-- Rendering of a rational number the way the formatted strings need it:
integral values render as integers. -/
def numStr (q : ℚ) : String :=
  if q.den = 1 then toString q.num else toString q

mutual

/-- Python `repr` of a JSON value (used by `str` on containers). -/
def pyRepr : JVal → String
  | .null => "None"
  | .bool true => "True"
  | .bool false => "False"
  | .num q => numStr q
  | .str s => "\x27" ++ s ++ "\x27"
  | .arr xs => "[" ++ pyJoin ", " (pyReprList xs) ++ "]"
  | .obj fs => "\x7b" ++ pyJoin ", " (pyReprFields fs) ++ "\x7d"

/-- The element renderings of a JSON list. -/
def pyReprList : List JVal → List String
  | [] => []
  | v :: vs => pyRepr v :: pyReprList vs

/-- The `'key': value` renderings of a JSON object. -/
def pyReprFields : List (String × JVal) → List String
  | [] => []
  | (k, v) :: fs => ("\x27" ++ k ++ "\x27: " ++ pyRepr v) :: pyReprFields fs

end

/-- Python `str(v)` as an f-string interpolates it. -/
def pyStr : JVal → String
  | .str s => s
  | v => pyRepr v

/-- Python `v > q` against a numeric literal: booleans compare as 0/1,
numbers by value, anything else raises `TypeError`. -/
def pyGtNum (v : JVal) (q : ℚ) : Except PyErr Bool :=
  match v with
  | .bool b => Except.ok ((if b then (1 : ℚ) else 0) > q)
  | .num x => Except.ok (x > q)
  | _ => Except.error PyErr.typeError

/-- Python `sep.join(vs)`: every element must be a string, otherwise
`TypeError`. -/
def pyJoinVals (sep : String) (vs : List JVal) : Except PyErr String :=
  (mapME (fun v => match v with
    | JVal.str s => Except.ok s
    | _ => Except.error PyErr.typeError) vs).map (pyJoin sep)

/-! Query builders. -/

/-- Colorado State University OpenAlex ID (module constant). -/
def CSU_OPENALEX_ID : String := "i92446798"

/-- Split a character list at every occurrence of `sep`, keeping empty
fields (Python `s.split(sep)` always returns at least one field). -/
def splitOnChar (sep : Char) (cs : List Char) : List (List Char) :=
  cs.foldr
    (fun c acc =>
      if c = sep then [] :: acc
      else
        match acc with
        | [] => [[c]]
        | t :: ts => (c :: t) :: ts)
    [[]]

/-- Python `s.split(sep)` for a one-character separator. -/
def pySplitOn (s : String) (sep : Char) : List String :=
  (splitOnChar sep s.data).map (fun t => String.mk t)

/-- `extract_openalex_id(full_url)` of the source: empty input maps to
`""`, a URL starting with `https` is reduced to its last `/`-separated
segment, anything else is returned unchanged. -/
def extract_openalex_id (full_url : String) : String :=
  if full_url = "" then ""
  else if full_url.startsWith "https" then (pySplitOn full_url '/').getLastD ""
  else full_url

/-- Values appearing in the query-parameter dictionaries of the module:
strings and the integer `per-page`. -/
inductive ParamVal where
  | str (s : String)
  | int (n : Int)
deriving DecidableEq, Repr

/-- Query-parameter dictionary: insertion-ordered, unique string keys. -/
abbrev Params := List (String × ParamVal)

/-- Python `d[k] = v` on an insertion-ordered dictionary: update in place
when the key exists, append otherwise. -/
def dictSet (d : Params) (k : String) (v : ParamVal) : Params :=
  if d.any (fun e => e.1 = k) then d.map (fun e => if e.1 = k then (k, v) else e)
  else d ++ [(k, v)]

/-- Lookup of a key in a parameter dictionary. -/
def dictLookup (d : Params) (k : String) : Option ParamVal :=
  (d.find? (fun e => e.1 = k)).map (fun e => e.2)

/-- Python truthiness of an optional string argument (`None` and `""` are
falsy). -/
def optStrTruthy : Option String → Bool
  | none => false
  | some s => s ≠ ""

/-- Python truthiness of an optional boolean argument. -/
def optBoolTruthy : Option Bool → Bool
  | none => false
  | some b => b

/-- The `limit = min(max(limit, 1), 200)` clamping shared by both search
operations. -/
def clampLimit (limit : Int) : Int :=
  min (max limit 1) 200

/-- The filter clauses `search_works_openalex` collects, in source order. -/
def worksFilters (filter_type filter_year filter_author_id : Option String)
    (filter_csu_only : Option Bool) : List String :=
  (if optStrTruthy filter_type then ["type:" ++ filter_type.getD ""] else []) ++
  (if optStrTruthy filter_year then ["publication_year:" ++ filter_year.getD ""] else []) ++
  (if optStrTruthy filter_author_id then
    ["authorships.author.id:" ++ filter_author_id.getD ""] else []) ++
  (if optBoolTruthy filter_csu_only then
    ["authorships.institutions.id:" ++ CSU_OPENALEX_ID] else [])

/-- The validation-failure string `search_works_openalex` returns when the
query is blank and no filter is supplied. -/
def worksValidationMsg : String :=
  "Error: Either provide a search query or at least one filter (filter_type, filter_year, filter_author_id, or filter_csu_only)."

/-- The part of the works parameter building after the blank-query guard:
conditional `sort`, conditional `mailto`, joined `filter`. -/
def worksParamsRest (sort_by : String) (email : Option String)
    (filter_type filter_year filter_author_id : Option String)
    (filter_csu_only : Option Bool) (params : Params) : Params :=
  let params :=
    if sort_by ≠ "" ∧ sort_by ≠ "relevance_score:desc" then
      dictSet params "sort" (ParamVal.str sort_by)
    else params
  let params :=
    if optStrTruthy email then dictSet params "mailto" (ParamVal.str (email.getD ""))
    else params
  let fs := worksFilters filter_type filter_year filter_author_id filter_csu_only
  if fs ≠ [] then dictSet params "filter" (ParamVal.str (pyJoin "," fs)) else params

/-- The pre-network phase of `search_works_openalex`: clamp the limit,
normalize a `None` query to `""`, build the parameter dictionary starting
from `{"search": query, "per-page": limit}`, re-set `search` when the
stripped query is non-empty, otherwise demand at least one filter, then
attach `sort`, `mailto` and `filter`.  The error case is the user-facing
validation string returned without any network call. -/
def search_works_params (query : Option String) (limit : Int) (sort_by : String)
    (filter_type filter_year filter_author_id : Option String)
    (filter_csu_only : Option Bool) (email : Option String) : Except String Params :=
  let limit := clampLimit limit
  let q := query.getD ""
  let params : Params := [("search", ParamVal.str q), ("per-page", ParamVal.int limit)]
  if pyStrip q ≠ "" then
    Except.ok (worksParamsRest sort_by email filter_type filter_year filter_author_id
      filter_csu_only (dictSet params "search" (ParamVal.str q)))
  else if !(optStrTruthy filter_type || optStrTruthy filter_year ||
            optStrTruthy filter_author_id || optBoolTruthy filter_csu_only) then
    Except.error worksValidationMsg
  else
    Except.ok (worksParamsRest sort_by email filter_type filter_year filter_author_id
      filter_csu_only params)

/-- The pre-network phase of `search_authors_openalex`: clamp the limit and
build `{"search": query, "per-page": limit, "sort": sort_by}` (note: `sort`
is set unconditionally here), then attach `mailto` and the CSU filter.
This operation has no validation guard, so it always produces parameters. -/
def search_authors_params (query : String) (limit : Int) (sort_by : String)
    (filter_csu_only : Option Bool) (email : Option String) : Params :=
  let limit := clampLimit limit
  let params : Params :=
    [("search", ParamVal.str query), ("per-page", ParamVal.int limit),
     ("sort", ParamVal.str sort_by)]
  let params :=
    if optStrTruthy email then dictSet params "mailto" (ParamVal.str (email.getD ""))
    else params
  let fs := if optBoolTruthy filter_csu_only then ["last_known_institutions.id:i92446798"] else []
  if fs ≠ [] then dictSet params "filter" (ParamVal.str (pyJoin "," fs)) else params

/-! Response normalizers. -/

/-- One author display name: `author.get("author", {}).get("display_name",
"Unknown")`. -/
def authorName (author : JVal) : Except PyErr JVal := do
  let a ← jget author "author" (JVal.obj [])
  jget a "display_name" (JVal.str "Unknown")

/-- The list-view author string of `search_works_openalex`: first three
display names joined by `", "`, and the suffix `" and N others"` when the
record has more than three authors. -/
def worksAuthorsStr (authors : JVal) : Except PyErr String := do
  let sl ← pySliceTake authors 3
  let items ← pyIter sl
  let names ← mapME authorName items
  let s ← pyJoinVals ", " names
  let n ← pyLen authors
  if n > 3 then pure (s ++ " and " ++ toString (n - 3) ++ " others") else pure s

/-- The detail-view author string of `get_work_details_openalex`: all
display names joined by `", "`, with no cap and no suffix. -/
def detailAuthorsStr (authors : JVal) : Except PyErr String := do
  let items ← pyIter authors
  let names ← mapME authorName items
  pyJoinVals ", " names

/-- The venue string shared by both work formatters: `primary_location`
and its `source` degrade from `None` to `{}` before access, missing leaf
fields degrade to `"Unknown venue"` / `""`. -/
def venueInfo (work : JVal) : Except PyErr String := do
  let venue0 ← jget work "primary_location" (JVal.obj [])
  let venue := match venue0 with
    | JVal.null => JVal.obj []
    | v => v
  let vs0 ← jget venue "source" (JVal.obj [])
  let vsource := match vs0 with
    | JVal.null => JVal.obj []
    | v => v
  let vname ← jget vsource "display_name" (JVal.str "Unknown venue")
  let vtype ← jget vsource "type" (JVal.str "")
  if jTruthy vtype then pure (pyStr vname ++ " (" ++ pyStr vtype ++ ")")
  else pure (pyStr vname)

/-- One step of the concept comprehension: the score condition (default 0,
threshold strictly above 3/10) is evaluated first, then the display name
(default `""`). -/
def conceptName? (concept : JVal) : Except PyErr (Option JVal) := do
  let score ← jget concept "score" (JVal.num 0)
  let b ← pyGtNum score (3/10)
  if b then do
    let n ← jget concept "display_name" (JVal.str "")
    pure (some n)
  else pure none

/-- Concept names of the list formatter: the slice `concepts[:3]` filtered
by score. -/
def worksConceptNames (concepts : JVal) : Except PyErr (List JVal) := do
  let sl ← pySliceTake concepts 3
  let items ← pyIter sl
  let names ← mapME conceptName? items
  pure (names.filterMap id)

/-- Concept names of the detail formatter: the whole list filtered by
score, with no slice. -/
def detailConceptNames (concepts : JVal) : Except PyErr (List JVal) := do
  let items ← pyIter concepts
  let names ← mapME conceptName? items
  pure (names.filterMap id)

/-- The `Concepts:` field of the list formatter. -/
def worksConceptsStr (concepts : JVal) : Except PyErr String := do
  let names ← worksConceptNames concepts
  if names.isEmpty then pure "No concepts available" else pyJoinVals ", " names

/-- The `Concepts:` field of the detail formatter. -/
def detailConceptsStr (concepts : JVal) : Except PyErr String := do
  let names ← detailConceptNames concepts
  if names.isEmpty then pure "No concepts available" else pyJoinVals ", " names

/-- One keyword display name (default `""`, no score filter). -/
def keywordName (k : JVal) : Except PyErr JVal :=
  jget k "display_name" (JVal.str "")

/-- Keyword names of the list formatter: the slice `keywords[:3]`. -/
def worksKeywordNames (keywords : JVal) : Except PyErr (List JVal) := do
  let sl ← pySliceTake keywords 3
  let items ← pyIter sl
  mapME keywordName items

/-- Keyword names of the detail formatter: the whole list. -/
def detailKeywordNames (keywords : JVal) : Except PyErr (List JVal) := do
  let items ← pyIter keywords
  mapME keywordName items

/-- The `Keywords:` field of the list formatter. -/
def worksKeywordsStr (keywords : JVal) : Except PyErr String := do
  let names ← worksKeywordNames keywords
  if names.isEmpty then pure "No keywords available" else pyJoinVals ", " names

/-- The `Keywords:` field of the detail formatter. -/
def detailKeywordsStr (keywords : JVal) : Except PyErr String := do
  let names ← detailKeywordNames keywords
  if names.isEmpty then pure "No keywords available" else pyJoinVals ", " names

/-- Positions list of one inverted-index entry.  Non-list values raise the
same exception kind Python would on `max(positions)` or the later slot
arithmetic (`TypeError`); booleans count as integers. -/
def jPositions : JVal → Except PyErr (List Int)
  | .arr xs =>
    mapME (fun v =>
      match v with
      | .num q => if q.den = 1 then Except.ok q.num else Except.error PyErr.typeError
      | .bool b => Except.ok (if b then (1 : Int) else 0)
      | _ => Except.error PyErr.typeError) xs
  | _ => Except.error PyErr.typeError

/-- Conversion of a JSON value to the typed inverted index
`reconstruct_abstract` consumes; a non-object raises `AttributeError`
exactly as `.values()` would. -/
def jToIndex : JVal → Except PyErr (List (String × List Int))
  | .obj fs => mapME (fun e => do pure (e.1, ← jPositions e.2)) fs
  | _ => Except.error PyErr.attributeError

/-- The abstract handling shared by both work formatters:
`work.get("abstract_inverted_index")` defaults to `None`, and only a
truthy value is passed to `reconstruct_abstract`. -/
def abstractOf (work : JVal) : Except PyErr String := do
  let ai ← jget work "abstract_inverted_index" JVal.null
  if jTruthy ai then do
    let idx ← jToIndex ai
    reconstruct_abstract (some idx)
  else pure ""

/-- The OpenAlex-ID extraction applied to the raw `id` field: a falsy
value short-circuits to `""` inside `extract_openalex_id`, a truthy
non-string raises `AttributeError` on `startswith`. -/
def extractIdJ (v : JVal) : Except PyErr String :=
  if jTruthy v = false then Except.ok ""
  else
    match v with
    | .str s => Except.ok (extract_openalex_id s)
    | _ => Except.error PyErr.attributeError

/-- One numbered entry of the works search-result listing. -/
def formatWorkItem (i : Nat) (work : JVal) : Except PyErr String := do
  let title ← jget work "title" (JVal.str "No title")
  let authors ← jget work "authorships" (JVal.arr [])
  let authors_str ← worksAuthorsStr authors
  let venue_info ← venueInfo work
  let publication_date ← jget work "publication_date" (JVal.str "Unknown date")
  let cited_by_count ← jget work "cited_by_count" (JVal.num 0)
  let doi ← jget work "doi" (JVal.str "No DOI")
  let idv ← jget work "id" (JVal.str "")
  let openalex_id ← extractIdJ idv
  let concepts ← jget work "concepts" (JVal.arr [])
  let concepts_str ← worksConceptsStr concepts
  let keywords ← jget work "keywords" (JVal.arr [])
  let keywords_str ← worksKeywordsStr keywords
  let abstract ← abstractOf work
  pure (toString i ++ ". **" ++ pyStr title ++ "**\n" ++
    "   Authors: " ++ authors_str ++ "\n" ++
    "   Venue: " ++ venue_info ++ "\n" ++
    "   Published: " ++ pyStr publication_date ++ "\n" ++
    "   Citations: " ++ pyStr cited_by_count ++ "\n" ++
    "   DOI: " ++ pyStr doi ++ "\n" ++
    "   OpenAlex ID: " ++ openalex_id ++ "\n" ++
    "   Concepts: " ++ concepts_str ++ "\n" ++
    "   Keywords: " ++ keywords_str ++ "\n" ++
    (if abstract ≠ "" then "   Abstract: " ++ abstract ++ "\n"
     else "   Abstract: No abstract available\n") ++
    "\n")

/-- The body of `search_works_openalex` on a parsed 200 response: extract
`results`, return the no-results string on a falsy value, otherwise the
`Found ...` header followed by the numbered entries. -/
def formatWorksBody (limit : Int) (data : JVal) : Except PyErr String := do
  let works ← jget data "results" (JVal.arr [])
  if jTruthy works = false then
    pure "No works found matching your search criteria."
  else do
    let n ← pyLen works
    let items ← pyIter works
    let pieces ← mapME (fun e => formatWorkItem (e.1 + 1) e.2) items.enum
    pure ("Found " ++ (toString n ++ " works (showing up to " ++ toString limit ++ "):\n\n" ++
      String.join pieces))

/-- The body of `get_work_details_openalex` on a parsed 200 response. -/
def formatDetailBody (work : JVal) : Except PyErr String := do
  let title ← jget work "title" (JVal.str "No title")
  let authors ← jget work "authorships" (JVal.arr [])
  let authors_str ← detailAuthorsStr authors
  let venue_info ← venueInfo work
  let publication_date ← jget work "publication_date" (JVal.str "Unknown date")
  let cited_by_count ← jget work "cited_by_count" (JVal.num 0)
  let doi ← jget work "doi" (JVal.str "No DOI")
  let idv ← jget work "id" (JVal.str "")
  let openalex_id ← extractIdJ idv
  let concepts ← jget work "concepts" (JVal.arr [])
  let concepts_str ← detailConceptsStr concepts
  let keywords ← jget work "keywords" (JVal.arr [])
  let keywords_str ← detailKeywordsStr keywords
  let abstract ← abstractOf work
  pure ("**" ++ (pyStr title ++ "**\n\n" ++
    "**Authors:** " ++ authors_str ++ "\n\n" ++
    "**Venue:** " ++ venue_info ++ "\n" ++
    "**Published:** " ++ pyStr publication_date ++ "\n" ++
    "**Citations:** " ++ pyStr cited_by_count ++ "\n" ++
    "**DOI:** " ++ pyStr doi ++ "\n" ++
    "**OpenAlex ID:** " ++ openalex_id ++ "\n\n" ++
    "**Concepts:** " ++ concepts_str ++ "\n\n" ++
    "**Keywords:** " ++ keywords_str ++ "\n\n" ++
    (if abstract ≠ "" then "**Abstract:** " ++ abstract ++ "\n"
     else "**Abstract:** No abstract available\n")))

/-- The institution fields of one author record: the
`last_known_institutions` value defaults to `[]`, a truthy value is
subscripted at index 0 (the list shape), and the two leaf fields default
to the `Unknown` placeholders; a falsy value yields the placeholders
directly. -/
def instInfo (author : JVal) : Except PyErr (JVal × JVal) := do
  let institutions ← jget author "last_known_institutions" (JVal.arr [])
  if jTruthy institutions then do
    let institution ← pyIndex institutions 0
    let name ← jget institution "display_name" (JVal.str "Unknown institution")
    let country ← jget institution "country_code" (JVal.str "Unknown country")
    pure (name, country)
  else
    pure (JVal.str "Unknown institution", JVal.str "Unknown country")

/-- One step of the research-area comprehension of the authors formatter:
the truthiness condition reads `display_name` with default `None`, the
expression re-reads it with default `""`. -/
def researchArea? (c : JVal) : Except PyErr (Option JVal) := do
  let cond ← jget c "display_name" JVal.null
  if jTruthy cond then do
    let n ← jget c "display_name" (JVal.str "")
    pure (some n)
  else pure none

/-- Numeric value of a JSON number or boolean, for the relevance-score
format specifier. -/
def jNumVal : JVal → Except PyErr ℚ
  | .num q => Except.ok q
  | .bool b => Except.ok (if b then 1 else 0)
  | _ => Except.error PyErr.typeError

/-- Fixed-point rendering with three decimals, the `:.3f` format
specifier. -/
def pyFormat3 (q : ℚ) : String :=
  let m : ℤ := ⌊q * 1000 + 1 / 2⌋
  let a := m.natAbs
  let ip := a / 1000
  let fp := a % 1000
  (if m < 0 then "-" else "") ++ toString ip ++ "." ++
    (if fp < 10 then "00" else if fp < 100 then "0" else "") ++ toString fp

/-- One numbered entry of the authors search-result listing. -/
def formatAuthorItem (i : Nat) (author : JVal) : Except PyErr String := do
  let name ← jget author "display_name" (JVal.str "No name")
  let works_count ← jget author "works_count" (JVal.num 0)
  let cited_by_count ← jget author "cited_by_count" (JVal.num 0)
  let ss1 ← jget author "summary_stats" (JVal.obj [])
  let h_index ← jget ss1 "h_index" (JVal.num 0)
  let ss2 ← jget author "summary_stats" (JVal.obj [])
  let i10_index ← jget ss2 "i10_index" (JVal.num 0)
  let idv ← jget author "id" (JVal.str "")
  let openalex_id ← extractIdJ idv
  let relevance_score ← jget author "relevance_score" (JVal.num 0)
  let inst ← instInfo author
  let concepts ← jget author "x_concepts" (JVal.arr [])
  let sl ← pySliceTake concepts 5
  let items ← pyIter sl
  let areas0 ← mapME researchArea? items
  let research_areas := areas0.filterMap id
  let research_areas_str ←
    if research_areas.isEmpty then pure "No research areas available"
    else pyJoinVals ", " research_areas
  let relLine ←
    (do
      let b ← pyGtNum relevance_score 0
      if b then do
        let q ← jNumVal relevance_score
        pure ("   Relevance Score: " ++ pyFormat3 q ++ "\n")
      else pure "")
  pure (toString i ++ ". **" ++ pyStr name ++ "**\n" ++
    "   Institution: " ++ pyStr inst.1 ++ " (" ++ pyStr inst.2 ++ ")\n" ++
    "   Works: " ++ pyStr works_count ++ "\n" ++
    "   Citations: " ++ pyStr cited_by_count ++ "\n" ++
    "   h-index: " ++ pyStr h_index ++ "\n" ++
    "   i10-index: " ++ pyStr i10_index ++ "\n" ++
    relLine ++
    "   Research Areas: " ++ research_areas_str ++ "\n" ++
    "   OpenAlex ID: " ++ openalex_id ++ "\n\n")

/-- The body of `search_authors_openalex` on a parsed 200 response. -/
def formatAuthorsBody (limit : Int) (data : JVal) : Except PyErr String := do
  let authors ← jget data "results" (JVal.arr [])
  if jTruthy authors = false then
    pure "No authors found matching your search criteria."
  else do
    let n ← pyLen authors
    let items ← pyIter authors
    let pieces ← mapME (fun e => formatAuthorItem (e.1 + 1) e.2) items.enum
    pure ("Found " ++ (toString n ++ " authors (showing up to " ++ toString limit ++ "):\n\n" ++
      String.join pieces))

/-! The three operations over an abstract service outcome. -/

/-- Outcome of the single HTTP round trip: an exception raised during
transport or parsing (with its message), a parsed 200 response, or a
non-200 status with its body text. -/
inductive Resp where
  | raised (msg : String)
  | success (data : JVal)
  | failure (status : Int) (body : String)

/-- The fixed marker prefixed to any caught exception. -/
def errMarker : String := "Error accessing OpenAlex API: "

/-- `search_works_openalex` end to end: validation and parameter building,
then the response dispatch; every caught exception — transport or
formatting — is reported through the marker string, so the operation
always returns a string. -/
def search_works_openalex (query : Option String) (limit : Int) (sort_by : String)
    (filter_type filter_year filter_author_id : Option String)
    (filter_csu_only : Option Bool) (email : Option String) (resp : Resp) : String :=
  match search_works_params query limit sort_by filter_type filter_year filter_author_id
      filter_csu_only email with
  | .error msg => msg
  | .ok _ =>
    match resp with
    | .raised msg => errMarker ++ msg
    | .failure status body =>
      "Error searching OpenAlex: HTTP " ++ toString status ++ " - " ++ body
    | .success data =>
      match formatWorksBody (clampLimit limit) data with
      | .ok s => s
      | .error e => errMarker ++ pyErrStr e

/-- The URL routing of `get_work_details_openalex`: a DOI (`10.`-led
identifier) goes to the `doi:` sub-path. -/
def workUrl (work_id : String) : String :=
  if work_id.startsWith "10." then "https://api.openalex.org/works/doi:" ++ work_id
  else "https://api.openalex.org/works/" ++ work_id

/-- `get_work_details_openalex` end to end: response dispatch with a
dedicated 404 message, formatting errors caught by the marker. -/
def get_work_details_openalex (work_id : String) (email : Option String) (resp : Resp) : String :=
  match resp with
  | .raised msg => errMarker ++ msg
  | .failure status body =>
    if status = 404 then "Work not found. Please check the work ID or DOI."
    else "Error retrieving work details: HTTP " ++ toString status ++ " - " ++ body
  | .success work =>
    match formatDetailBody work with
    | .ok s => s
    | .error e => errMarker ++ pyErrStr e

/-- `search_authors_openalex` end to end: no validation guard, then the
response dispatch, formatting errors caught by the marker. -/
def search_authors_openalex (query : String) (limit : Int) (sort_by : String)
    (filter_csu_only : Option Bool) (email : Option String) (resp : Resp) : String :=
  match resp with
  | .raised msg => errMarker ++ msg
  | .failure status body =>
    "Error searching OpenAlex: HTTP " ++ toString status ++ " - " ++ body
  | .success data =>
    match formatAuthorsBody (clampLimit limit) data with
    | .ok s => s
    | .error e => errMarker ++ pyErrStr e

/-! Specification-side definitions used to state the claims. -/

/-- The word owning position `p` in an inverted index: the first entry
whose position list mentions `p` (with pairwise non-overlapping position
lists this is the only such entry). -/
def owner? (idx : List (String × List Int)) (p : Int) : Option String :=
  (idx.find? (fun e => e.2.contains p)).map (fun e => e.1)

/-- No two adjacent whitespace characters (the "no multi-space runs"
property of the reconstructed abstract). -/
def noDoubleSpace : List Char → Bool
  | [] => true
  | [_] => true
  | a :: b :: rest => (!(pyIsSpace a && pyIsSpace b)) && noDoubleSpace (b :: rest)

/-- Character-level form of joining with a single space, used to reason
about `pyJoin " "`. -/
def joinData : List (List Char) → List Char
  | [] => []
  | [t] => t
  | t :: ts => t ++ ' ' :: joinData ts

/-- Well-formed inverted index per the data-model invariant: non-empty
position lists of non-negative positions. -/
def IndexWF (idx : List (String × List Int)) : Prop :=
  (∀ e ∈ idx, e.2 ≠ []) ∧ (∀ e ∈ idx, ∀ p ∈ e.2, 0 ≤ p)

/-- The authorship record shape `{"author": {"display_name": name}}`, used
to state the author-formatting claims. -/
def mkAuthorship (n : String) : JVal :=
  JVal.obj [("author", JVal.obj [("display_name", JVal.str n)])]

/-- The concept record shape `{"display_name": name, "score": score}`. -/
def mkConceptV (c : String × ℚ) : JVal :=
  JVal.obj [("display_name", JVal.str c.1), ("score", JVal.num c.2)]

/-- The keyword record shape `{"display_name": name}`. -/
def mkKeywordV (k : String) : JVal :=
  JVal.obj [("display_name", JVal.str k)]

/-! Dictionary lemmas. -/

theorem find?_update_self (k : String) (v : ParamVal) :
    ∀ d : Params, d.any (fun e => e.1 = k) = true →
      (d.map (fun e => if e.1 = k then (k, v) else e)).find? (fun e => e.1 = k) = some (k, v) := by
  intro d
  induction d with
  | nil => simp
  | cons e es ih =>
    intro h
    by_cases hk : e.1 = k
    · simp [hk]
    · simp only [List.any_cons, decide_eq_true_eq, Bool.or_eq_true] at h
      rcases h with h | h
      · exact absurd h hk
      · simpa [hk] using ih h

theorem find?_update_ne (k k' : String) (v : ParamVal) (hne : k' ≠ k) :
    ∀ d : Params,
      (d.map (fun e => if e.1 = k then (k, v) else e)).find? (fun e => e.1 = k')
        = d.find? (fun e => e.1 = k') := by
  intro d
  induction d with
  | nil => simp
  | cons e es ih =>
    simp only [List.map_cons]
    by_cases hk : e.1 = k
    · have h1 : ¬(k = k') := fun h => hne h.symm
      have h2 : ¬(e.1 = k') := by rw [hk]; exact h1
      rw [if_pos hk, List.find?_cons_of_neg _ (by simpa using h1),
        List.find?_cons_of_neg _ (by simpa using h2), ih]
    · rw [if_neg hk]
      by_cases hk' : e.1 = k'
      · rw [List.find?_cons_of_pos _ (by simpa using hk'),
          List.find?_cons_of_pos _ (by simpa using hk')]
      · rw [List.find?_cons_of_neg _ (by simpa using hk'),
          List.find?_cons_of_neg _ (by simpa using hk'), ih]

theorem dictLookup_set_self (d : Params) (k : String) (v : ParamVal) :
    dictLookup (dictSet d k v) k = some v := by
  unfold dictSet dictLookup
  by_cases h : d.any (fun e => e.1 = k) = true
  · simp only [h, if_true, find?_update_self k v d h, Option.map_some']
  · rw [if_neg (by simpa using h)]
    have hnone : d.find? (fun e => e.1 = k) = none :=
      List.find?_eq_none.mpr (by simpa [List.any_eq_false] using (Bool.not_eq_true _).mp h)
    simp [List.find?_append, hnone]

theorem dictLookup_set_ne (d : Params) (k k' : String) (v : ParamVal) (hne : k' ≠ k) :
    dictLookup (dictSet d k v) k' = dictLookup d k' := by
  unfold dictSet dictLookup
  by_cases h : d.any (fun e => e.1 = k) = true
  · simp only [h, if_true, find?_update_ne k k' v hne d]
  · rw [if_neg (by simpa using h)]
    have : ¬(k = k') := fun hh => hne hh.symm
    simp [List.find?_append, this]

theorem dictLookup_setIf_ne (c : Prop) [Decidable c] (d : Params) (k k' : String)
    (v : ParamVal) (hne : k' ≠ k) :
    dictLookup (if c then dictSet d k v else d) k' = dictLookup d k' := by
  split
  · exact dictLookup_set_ne d k k' v hne
  · rfl

theorem dictLookup_worksParamsRest_ne (sb : String) (em ft fy fa : Option String)
    (fc : Option Bool) (d : Params) (k : String)
    (h1 : k ≠ "sort") (h2 : k ≠ "mailto") (h3 : k ≠ "filter") :
    dictLookup (worksParamsRest sb em ft fy fa fc d) k = dictLookup d k := by
  simp only [worksParamsRest]
  rw [dictLookup_setIf_ne _ _ _ _ _ h3, dictLookup_setIf_ne _ _ _ _ _ h2,
    dictLookup_setIf_ne _ _ _ _ _ h1]

theorem dictLookup_worksParamsRest_sort (sb : String) (em ft fy fa : Option String)
    (fc : Option Bool) (d : Params) :
    dictLookup (worksParamsRest sb em ft fy fa fc d) "sort"
      = if sb ≠ "" ∧ sb ≠ "relevance_score:desc" then some (ParamVal.str sb)
        else dictLookup d "sort" := by
  simp only [worksParamsRest]
  rw [dictLookup_setIf_ne _ _ _ _ _ (by decide : "sort" ≠ "filter"),
    dictLookup_setIf_ne _ _ _ _ _ (by decide : "sort" ≠ "mailto")]
  split
  · exact dictLookup_set_self d "sort" _
  · rfl

theorem dictLookup_authors_base (q sb : String) (L : Int) (k : String) (fc : Option Bool)
    (em : Option String) (hk : k ≠ "mailto") (hf : k ≠ "filter") :
    dictLookup (search_authors_params q L sb fc em) k
      = dictLookup [("search", ParamVal.str q), ("per-page", ParamVal.int (clampLimit L)),
          ("sort", ParamVal.str sb)] k := by
  simp only [search_authors_params]
  rw [dictLookup_setIf_ne _ _ _ _ _ hf, dictLookup_setIf_ne _ _ _ _ _ hk]

/-- C2 — the claim states that a blank `free_text` with a filter present
produces a parameter mapping with no `search` key.  The code initializes
the parameter dictionary with `"search": query` unconditionally and never
removes it, so the blank search key is sent anyway; this evaluation pins
the behaviour at the failing input (blank query, `filter_type="article"`):
the produced parameters do contain `"search"` mapped to the empty
string, contradicting the code's own comment `Only add search parameter
if query is not empty`. -/
theorem claim_C2_code_behavior :
    search_works_params (some "") 10 "relevance_score:desc" (some "article") none none none none
      = Except.ok [("search", ParamVal.str ""), ("per-page", ParamVal.int 10),
          ("filter", ParamVal.str "type:article")]
    ∧ dictLookup [("search", ParamVal.str ""), ("per-page", ParamVal.int 10),
          ("filter", ParamVal.str "type:article")] "search" = some (ParamVal.str "") :=
  ⟨rfl, rfl⟩

/-- C6 (amended) — the works search includes `sort` exactly when the sort
key is non-empty and differs from the relevance default, but the authors
search sets `sort` unconditionally, default or not. -/
theorem claim_C6_sort_param :
    (∀ (query : Option String) (limit : Int) (sort_by : String)
      (ft fy fa : Option String) (fc : Option Bool) (email : Option String) (ps : Params),
      search_works_params query limit sort_by ft fy fa fc email = Except.ok ps →
      dictLookup ps "sort" =
        if sort_by ≠ "" ∧ sort_by ≠ "relevance_score:desc" then some (ParamVal.str sort_by)
        else none) ∧
    (∀ (query : String) (limit : Int) (sort_by : String) (fc : Option Bool)
      (email : Option String),
      dictLookup (search_authors_params query limit sort_by fc email) "sort"
        = some (ParamVal.str sort_by)) := by
  constructor
  · intro query limit sort_by ft fy fa fc email ps h
    revert h
    simp only [search_works_params]
    split
    · intro h
      injection h with h
      subst h
      rw [dictLookup_worksParamsRest_sort]
      have hb : dictLookup (dictSet [("search", ParamVal.str (query.getD "")),
          ("per-page", ParamVal.int (clampLimit limit))] "search"
          (ParamVal.str (query.getD ""))) "sort" = none := rfl
      rw [hb]
    · split
      · intro h
        exact absurd h (by simp)
      · intro h
        injection h with h
        subst h
        rw [dictLookup_worksParamsRest_sort]
        have hb : dictLookup [("search", ParamVal.str (query.getD "")),
            ("per-page", ParamVal.int (clampLimit limit))] "sort" = none := rfl
        rw [hb]
  · intro query limit sort_by fc email
    rw [dictLookup_authors_base _ _ _ _ _ _ (by decide) (by decide)]
    rfl

/-- C6 counterexample — in the authors search the requested sort key
equals the relevance default, yet the `sort` parameter is present, so
"included if and only if it differs from the default" fails. -/
theorem claim_C6_counterexample :
    dictLookup (search_authors_params "smith" 10 "relevance_score:desc" none none) "sort"
      = some (ParamVal.str "relevance_score:desc")
    ∧ ¬("relevance_score:desc" ≠ "relevance_score:desc") :=
  ⟨rfl, fun h => h rfl⟩

/-- C6 witness. -/
theorem claim_C6_witness :
    dictLookup ([("search", ParamVal.str "ml"), ("per-page", ParamVal.int 10),
        ("sort", ParamVal.str "cited_by_count:desc")] : Params) "sort"
      = some (ParamVal.str "cited_by_count:desc") := by
  have h := claim_C6_sort_param.1 (some "ml") 10 "cited_by_count:desc" none none none none none
    [("search", ParamVal.str "ml"), ("per-page", ParamVal.int 10),
      ("sort", ParamVal.str "cited_by_count:desc")] (by rfl)
  simpa using h

/-- C7 — a blank (empty, `None`, or whitespace-only) query with every
filter unset makes `search_works_openalex` return the descriptive
validation-error string, for every possible service outcome: the result
does not depend on the response, i.e. no network interaction is
consulted. -/
theorem claim_C7_blank_query_guard (query : Option String) (limit : Int) (sort_by : String)
    (ft fy fa : Option String) (fc : Option Bool) (email : Option String)
    (hq : pyStrip (query.getD "") = "")
    (h1 : optStrTruthy ft = false) (h2 : optStrTruthy fy = false)
    (h3 : optStrTruthy fa = false) (h4 : optBoolTruthy fc = false) :
    search_works_params query limit sort_by ft fy fa fc email = Except.error worksValidationMsg
    ∧ ∀ resp : Resp,
        search_works_openalex query limit sort_by ft fy fa fc email resp = worksValidationMsg := by
  have hparams : search_works_params query limit sort_by ft fy fa fc email
      = Except.error worksValidationMsg := by
    simp only [search_works_params]
    rw [if_neg (by simpa using hq)]
    simp [h1, h2, h3, h4]
  refine ⟨hparams, fun resp => ?_⟩
  simp only [search_works_openalex, hparams]

/-- C7 witness. -/
theorem claim_C7_witness :
    search_works_openalex (some "   ") 10 "relevance_score:desc" none none none none
      (some "gavin@redspire.us") (Resp.raised "socket closed") = worksValidationMsg :=
  (claim_C7_blank_query_guard (some "   ") 10 "relevance_score:desc" none none none none
    (some "gavin@redspire.us") (by rfl) (by rfl) (by rfl) (by rfl) (by rfl)).2
    (Resp.raised "socket closed")

/-- C8 — the effective per-page limit of both search operations is the
input clamped into [1, 200]: in range it is the identity, out of range it
is silently clamped (no error value exists on this path), and the three
example inputs 0, 500, 10 map to 1, 200, 10. -/
theorem claim_C8_limit_clamp (limit : Int) :
    (1 ≤ clampLimit limit ∧ clampLimit limit ≤ 200) ∧
    (limit < 1 → clampLimit limit = 1) ∧
    (200 < limit → clampLimit limit = 200) ∧
    (1 ≤ limit → limit ≤ 200 → clampLimit limit = limit) ∧
    clampLimit 0 = 1 ∧ clampLimit 500 = 200 ∧ clampLimit 10 = 10 ∧
    (∀ (query sort_by : String) (fc : Option Bool) (email : Option String),
      dictLookup (search_authors_params query limit sort_by fc email) "per-page"
        = some (ParamVal.int (clampLimit limit))) ∧
    (∀ (query : Option String) (sort_by : String) (ft fy fa : Option String)
      (fc : Option Bool) (email : Option String) (ps : Params),
      search_works_params query limit sort_by ft fy fa fc email = Except.ok ps →
      dictLookup ps "per-page" = some (ParamVal.int (clampLimit limit))) := by
  refine ⟨⟨?_, ?_⟩, ?_, ?_, ?_, by decide, by decide, by decide, ?_, ?_⟩
  · simp only [clampLimit]; omega
  · simp only [clampLimit]; omega
  · intro h; simp only [clampLimit]; omega
  · intro h; simp only [clampLimit]; omega
  · intro h1 h2; simp only [clampLimit]; omega
  · intro query sort_by fc email
    rw [dictLookup_authors_base _ _ _ _ _ _ (by decide) (by decide)]
    rfl
  · intro query sort_by ft fy fa fc email ps h
    revert h
    simp only [search_works_params]
    split
    · intro h
      injection h with h
      subst h
      rw [dictLookup_worksParamsRest_ne _ _ _ _ _ _ _ _ (by decide) (by decide) (by decide),
        dictLookup_set_ne _ _ _ _ (by decide)]
      rfl
    · split
      · intro h
        exact absurd h (by simp)
      · intro h
        injection h with h
        subst h
        rw [dictLookup_worksParamsRest_ne _ _ _ _ _ _ _ _ (by decide) (by decide) (by decide)]
        rfl

/-- C8 witness. -/
theorem claim_C8_witness :
    clampLimit 500 = 200
    ∧ dictLookup (search_authors_params "smith" 500 "relevance_score:desc" none none) "per-page"
        = some (ParamVal.int 200) := by
  have h := claim_C8_limit_clamp 500
  have ha := h.2.2.2.2.2.2.2.1 "smith" "relevance_score:desc" none none
  have hc : clampLimit 500 = 200 := h.2.2.2.2.2.1
  rw [hc] at ha
  exact ⟨h.2.2.1 (by decide), ha⟩

/-! Monad-reduction helpers for the `Except PyErr` pipelines. -/

theorem ok_bind {α β : Type} (a : α) (f : α → Except PyErr β) :
    (Except.ok a : Except PyErr α) >>= f = f a := rfl

theorem error_bind {α β : Type} (e : PyErr) (f : α → Except PyErr β) :
    (Except.error e : Except PyErr α) >>= f = Except.error e := rfl

theorem pure_eq_ok {α : Type} (a : α) : (pure a : Except PyErr α) = Except.ok a := rfl

/-! Formatter-fragment lemmas. -/

theorem authorName_mk (n : String) : authorName (mkAuthorship n) = Except.ok (JVal.str n) := rfl

theorem mapM_authorName (names : List String) :
    mapME authorName (names.map mkAuthorship) = Except.ok (names.map JVal.str) := by
  induction names with
  | nil => rfl
  | cons n ns ih => simp [mapME, authorName_mk, ih, ok_bind, pure_eq_ok]

theorem pyJoinVals_strs (sep : String) (names : List String) :
    pyJoinVals sep (names.map JVal.str) = Except.ok (pyJoin sep names) := by
  have h : ∀ ns : List String,
      mapME (fun v => match v with
        | JVal.str s => Except.ok s
        | _ => Except.error PyErr.typeError) (ns.map JVal.str) = Except.ok ns := by
    intro ns
    induction ns with
    | nil => rfl
    | cons n ns ih => simp [mapME, ih, ok_bind, pure_eq_ok]
  simp [pyJoinVals, h, Except.map]

/-- C4 (amended) — the list view takes the first three author names joined
by `", "` and appends `" and N others"` when more than three authors
exist; the detail view joins all author names with no cap and never
appends a suffix. -/
theorem claim_C4_author_formatting :
    (∀ names : List String, 3 < names.length →
      worksAuthorsStr (JVal.arr (names.map mkAuthorship))
        = Except.ok (pyJoin ", " (names.take 3) ++ " and " ++ toString (names.length - 3)
            ++ " others")) ∧
    (∀ names : List String, names.length ≤ 3 →
      worksAuthorsStr (JVal.arr (names.map mkAuthorship)) = Except.ok (pyJoin ", " names)) ∧
    (∀ names : List String,
      detailAuthorsStr (JVal.arr (names.map mkAuthorship)) = Except.ok (pyJoin ", " names)) := by
  refine ⟨?_, ?_, ?_⟩
  · intro names h
    simp only [worksAuthorsStr, pySliceTake, pyIter, pyLen, ok_bind, ← List.map_take,
      mapM_authorName, pyJoinVals_strs, List.length_map]
    have hgt : names.length > 3 := h
    rw [if_pos hgt]
    rfl
  · intro names h
    simp only [worksAuthorsStr, pySliceTake, pyIter, pyLen, ok_bind, ← List.map_take,
      mapM_authorName, pyJoinVals_strs, List.length_map]
    have hgt : ¬ (names.length > 3) := by omega
    rw [if_neg hgt, List.take_of_length_le h]
    rfl
  · intro names
    simp only [detailAuthorsStr, pyIter, ok_bind, mapM_authorName, pyJoinVals_strs]

/-- C4 counterexample — a six-author work in the detail formatter: every
name is shown joined by `", "` and no `"... and N more"` suffix is
appended, so the claimed detail-view capping with suffix fails. -/
theorem claim_C4_counterexample :
    detailAuthorsStr (JVal.arr (["a1", "a2", "a3", "a4", "a5", "a6"].map mkAuthorship))
      = Except.ok "a1, a2, a3, a4, a5, a6"
    ∧ ("more".data.isSuffixOf "a1, a2, a3, a4, a5, a6".data) = false :=
  ⟨rfl, by decide⟩

/-- C4 witness. -/
theorem claim_C4_witness :
    worksAuthorsStr (JVal.arr (["a1", "a2", "a3", "a4", "a5"].map mkAuthorship))
      = Except.ok "a1, a2, a3 and 2 others" := by
  have h := claim_C4_author_formatting.1 ["a1", "a2", "a3", "a4", "a5"] (by decide)
  exact h.trans (by rfl)

theorem conceptName?_mk (c : String × ℚ) :
    conceptName? (mkConceptV c)
      = Except.ok (if (3 : ℚ)/10 < c.2 then some (JVal.str c.1) else none) := by
  by_cases hc : (3 : ℚ)/10 < c.2 <;>
    simp [conceptName?, mkConceptV, jget, pyGtNum, hc, ok_bind, pure_eq_ok, gt_iff_lt]

theorem mapME_conceptName? (cs : List (String × ℚ)) :
    mapME conceptName? (cs.map mkConceptV)
      = Except.ok (cs.map (fun c => if (3 : ℚ)/10 < c.2 then some (JVal.str c.1) else none)) := by
  induction cs with
  | nil => rfl
  | cons c cs ih => simp [mapME, conceptName?_mk, ih, ok_bind, pure_eq_ok]

theorem filterMap_ite {α β : Type} (p : α → Prop) [DecidablePred p] (f : α → β) (l : List α) :
    (l.map (fun a => if p a then some (f a) else none)).filterMap id
      = (l.filter (fun a => decide (p a))).map f := by
  induction l with
  | nil => rfl
  | cons a as ih => by_cases hp : p a <;> simp [hp, ih]

theorem keywordName_mk (k : String) : keywordName (mkKeywordV k) = Except.ok (JVal.str k) := rfl

theorem mapME_keywordName (ks : List String) :
    mapME keywordName (ks.map mkKeywordV) = Except.ok (ks.map JVal.str) := by
  induction ks with
  | nil => rfl
  | cons k ks ih => simp [mapME, keywordName_mk, ih, ok_bind, pure_eq_ok]

/-- C3 (amended) — concepts are included exactly when their score is
strictly greater than 3/10; the list formatter caps them at 3 (slice
before filter), while the detail formatter applies no cap at all;
keywords are never score-filtered: the list formatter caps them at 3 and
the detail formatter shows them all. -/
theorem claim_C3_concept_caps :
    (∀ cs : List (String × ℚ),
      worksConceptNames (JVal.arr (cs.map mkConceptV))
        = Except.ok (((cs.take 3).filter (fun c => decide ((3 : ℚ)/10 < c.2))).map
            (fun c => JVal.str c.1))) ∧
    (∀ cs : List (String × ℚ),
      detailConceptNames (JVal.arr (cs.map mkConceptV))
        = Except.ok ((cs.filter (fun c => decide ((3 : ℚ)/10 < c.2))).map
            (fun c => JVal.str c.1))) ∧
    (∀ (cs : List (String × ℚ)) (l : List JVal),
      worksConceptNames (JVal.arr (cs.map mkConceptV)) = Except.ok l → l.length ≤ 3) ∧
    (∀ ks : List String,
      worksKeywordNames (JVal.arr (ks.map mkKeywordV)) = Except.ok ((ks.take 3).map JVal.str)) ∧
    (∀ ks : List String,
      detailKeywordNames (JVal.arr (ks.map mkKeywordV)) = Except.ok (ks.map JVal.str)) := by
  have hworks : ∀ cs : List (String × ℚ),
      worksConceptNames (JVal.arr (cs.map mkConceptV))
        = Except.ok (((cs.take 3).filter (fun c => decide ((3 : ℚ)/10 < c.2))).map
            (fun c => JVal.str c.1)) := by
    intro cs
    simp only [worksConceptNames, pySliceTake, pyIter, ok_bind, ← List.map_take,
      mapME_conceptName?, pure_eq_ok]
    rw [filterMap_ite]
  refine ⟨hworks, ?_, ?_, ?_, ?_⟩
  · intro cs
    simp only [detailConceptNames, pyIter, ok_bind, mapME_conceptName?, pure_eq_ok]
    rw [filterMap_ite]
  · intro cs l h
    rw [hworks cs] at h
    injection h with h
    subst h
    calc (((cs.take 3).filter _).map _).length
        ≤ (cs.take 3).length := by
          rw [List.length_map]; exact List.length_filter_le _ _
      _ ≤ 3 := by rw [List.length_take]; omega
  · intro ks
    simp only [worksKeywordNames, pySliceTake, pyIter, ok_bind, ← List.map_take,
      mapME_keywordName, pure_eq_ok]
  · intro ks
    simp only [detailKeywordNames, pyIter, ok_bind, mapME_keywordName, pure_eq_ok]

/-- C3 counterexample — eleven concepts, all scoring above the threshold,
fed to the detail formatter: all eleven names are shown, so the claimed
cap of 10 in the detail (single-work) formatter fails. -/
theorem claim_C3_counterexample :
    detailConceptNames (JVal.arr ([("c1", (1 : ℚ)), ("c2", 1), ("c3", 1), ("c4", 1), ("c5", 1),
        ("c6", 1), ("c7", 1), ("c8", 1), ("c9", 1), ("c10", 1), ("c11", 1)].map mkConceptV))
      = Except.ok [JVal.str "c1", JVal.str "c2", JVal.str "c3", JVal.str "c4", JVal.str "c5",
          JVal.str "c6", JVal.str "c7", JVal.str "c8", JVal.str "c9", JVal.str "c10",
          JVal.str "c11"]
    ∧ ([JVal.str "c1", JVal.str "c2", JVal.str "c3", JVal.str "c4", JVal.str "c5",
        JVal.str "c6", JVal.str "c7", JVal.str "c8", JVal.str "c9", JVal.str "c10",
        JVal.str "c11"] : List JVal).length > 10 := by
  have hq : (3 : ℚ)/10 < 1 := by norm_num
  constructor
  · simp only [detailConceptNames, pyIter, ok_bind, mapME_conceptName?, pure_eq_ok]
    rw [filterMap_ite]
    simp [hq]
  · simp

/-- C3 witness. -/
theorem claim_C3_witness :
    worksConceptNames (JVal.arr ([("a", (2 : ℚ)), ("b", 1/10), ("c", 1), ("d", 1)].map mkConceptV))
      = Except.ok [JVal.str "a", JVal.str "c"]
    ∧ ([JVal.str "a", JVal.str "c"] : List JVal).length ≤ 3 := by
  have h1 := claim_C3_concept_caps.1 [("a", (2 : ℚ)), ("b", 1/10), ("c", 1), ("d", 1)]
  have ha : (3 : ℚ)/10 < 2 := by norm_num
  have hb : ¬ ((3 : ℚ)/10 < 1/10) := by norm_num
  have hc : (3 : ℚ)/10 < 1 := by norm_num
  have h2 : worksConceptNames (JVal.arr ([("a", (2 : ℚ)), ("b", 1/10), ("c", 1),
      ("d", 1)].map mkConceptV)) = Except.ok [JVal.str "a", JVal.str "c"] := by
    rw [h1]
    norm_num [List.filter]
  exact ⟨h2, claim_C3_concept_caps.2.2.1 _ _ h2⟩

theorem pyIndex_arr_zero (x : JVal) (rest : List JVal) :
    pyIndex (JVal.arr (x :: rest)) 0 = Except.ok x := by
  have hlt : (0 : Int) < ((x :: rest).length : Int) := by
    simp only [List.length_cons]
    exact_mod_cast Nat.succ_pos rest.length
  simp [pyIndex, hlt]

/-- C5 (amended) — the author normalizer handles the
`last_known_institutions` field as a list: a non-empty list is read at
index 0 with the two leaf fields defaulting to the `Unknown` placeholders,
and an empty or absent field renders both placeholders.  A singular
object value is not handled (see the counterexample: subscription raises
`KeyError`); the code does not inspect the field's shape. -/
theorem claim_C5_institution_shapes :
    (∀ (name country : String) (extra : List (String × JVal)) (rest : List JVal),
      instInfo (JVal.obj [("last_known_institutions",
          JVal.arr (JVal.obj (("display_name", JVal.str name)
            :: ("country_code", JVal.str country) :: extra) :: rest))])
        = Except.ok (JVal.str name, JVal.str country)) ∧
    (∀ rest : List JVal,
      instInfo (JVal.obj [("last_known_institutions", JVal.arr (JVal.obj [] :: rest))])
        = Except.ok (JVal.str "Unknown institution", JVal.str "Unknown country")) ∧
    instInfo (JVal.obj [("last_known_institutions", JVal.arr [])])
      = Except.ok (JVal.str "Unknown institution", JVal.str "Unknown country") ∧
    instInfo (JVal.obj [])
      = Except.ok (JVal.str "Unknown institution", JVal.str "Unknown country") := by
  refine ⟨?_, ?_, rfl, rfl⟩
  · intro name country extra rest
    simp [instInfo, jget, jTruthy, pyIndex_arr_zero, ok_bind, pure_eq_ok]
  · intro rest
    simp [instInfo, jget, jTruthy, pyIndex_arr_zero, ok_bind, pure_eq_ok]

/-- C5 counterexample — a singular-object `last_known_institutions` value:
the subscription `institutions[0]` raises `KeyError` instead of producing
the institution name and country, so the claimed shape inspection fails. -/
theorem claim_C5_counterexample :
    instInfo (JVal.obj [("last_known_institutions",
        JVal.obj [("display_name", JVal.str "Colorado State University"),
          ("country_code", JVal.str "US")])])
      = Except.error PyErr.keyError
    ∧ (Except.error PyErr.keyError : Except PyErr (JVal × JVal)).isOk = false :=
  ⟨rfl, rfl⟩

/-! Lemmas about the maximum-position computation. -/

theorem foldlME_nil {α β : Type} (f : β → α → Except PyErr β) (b : β) :
    foldlME f b [] = Except.ok b := rfl

theorem foldlME_cons {α β : Type} (f : β → α → Except PyErr β) (b : β) (a : α) (as : List α) :
    foldlME f b (a :: as) = f b a >>= fun b' => foldlME f b' as := rfl

theorem mapME_nil {α β : Type} (f : α → Except PyErr β) : mapME f [] = Except.ok [] := rfl

theorem mapME_cons {α β : Type} (f : α → Except PyErr β) (a : α) (as : List α) :
    mapME f (a :: as) = f a >>= fun b => mapME f as >>= fun bs => pure (b :: bs) := rfl

theorem le_foldl_max (xs : List Int) (a : Int) : a ≤ xs.foldl max a := by
  induction xs generalizing a with
  | nil => exact le_refl a
  | cons x xs ih => exact le_trans (le_max_left a x) (ih (max a x))

theorem mem_le_foldl_max (xs : List Int) (a x : Int) (hx : x ∈ xs) : x ≤ xs.foldl max a := by
  induction xs generalizing a with
  | nil => cases hx
  | cons y ys ih =>
    rcases List.mem_cons.mp hx with h | h
    · subst h
      exact le_trans (le_max_right a x) (le_foldl_max ys (max a x))
    · exact ih (max a y) h

theorem listMaxInt_ok_of_ne_nil (ps : List Int) (h : ps ≠ []) :
    ∃ m, listMaxInt ps = Except.ok m := by
  cases ps with
  | nil => exact absurd rfl h
  | cons x xs => exact ⟨xs.foldl max x, rfl⟩

theorem listMaxInt_le (ps : List Int) (m : Int) (h : listMaxInt ps = Except.ok m) :
    ∀ p ∈ ps, p ≤ m := by
  cases ps with
  | nil => simp [listMaxInt] at h
  | cons x xs =>
    simp only [listMaxInt, Except.ok.injEq] at h
    intro p hp
    rcases List.mem_cons.mp hp with h' | h'
    · subst h'
      rw [← h]
      exact le_foldl_max xs p
    · rw [← h]
      exact mem_le_foldl_max xs x p h'

theorem maxFold_ok (es : List (String × List Int)) (a : Int) (h : ∀ e ∈ es, e.2 ≠ []) :
    ∃ m, foldlME (fun acc f => do
        let m ← listMaxInt f.2
        pure (max acc m)) a es = Except.ok m
      ∧ a ≤ m ∧ ∀ e ∈ es, ∀ p ∈ e.2, p ≤ m := by
  induction es generalizing a with
  | nil => exact ⟨a, rfl, le_refl a, by simp⟩
  | cons e es ih =>
    obtain ⟨me, hme⟩ := listMaxInt_ok_of_ne_nil e.2 (h e (List.mem_cons_self e _))
    obtain ⟨m, hm, ham, hall⟩ := ih (max a me) (fun e' he' => h e' (List.mem_cons_of_mem _ he'))
    refine ⟨m, ?_, le_trans (le_max_left a me) ham, ?_⟩
    · rw [foldlME_cons]
      show ((listMaxInt e.2 >>= fun m => pure (max a m)) >>= _) = Except.ok m
      rw [hme]
      exact hm
    · intro e' he' p hp
      rcases List.mem_cons.mp he' with h' | h'
      · subst h'
        exact le_trans (listMaxInt_le _ _ hme p hp) (le_trans (le_max_right a me) ham)
      · exact hall e' h' p hp

theorem maxPosition_ok (idx : List (String × List Int)) (hne : idx ≠ [])
    (h : ∀ e ∈ idx, e.2 ≠ []) :
    ∃ m, maxPosition idx = Except.ok m ∧ ∀ e ∈ idx, ∀ p ∈ e.2, p ≤ m := by
  cases idx with
  | nil => exact absurd rfl hne
  | cons e es =>
    obtain ⟨me, hme⟩ := listMaxInt_ok_of_ne_nil e.2 (h e (List.mem_cons_self e _))
    obtain ⟨m, hm, ham, hall⟩ := maxFold_ok es me (fun e' he' => h e' (List.mem_cons_of_mem _ he'))
    refine ⟨m, ?_, ?_⟩
    · show (listMaxInt e.2 >>= fun m0 => foldlME _ m0 es) = Except.ok m
      rw [hme]
      rw [ok_bind]
      exact hm
    · intro e' he' p hp
      rcases List.mem_cons.mp he' with h' | h'
      · subst h'
        exact le_trans (listMaxInt_le _ _ hme p hp) ham
      · exact hall e' h' p hp

/-! Lemmas about the slot-filling loops. -/

theorem placeWord_ok (w : String) (ps : List Int) :
    ∀ ws : List String, (∀ p ∈ ps, 0 ≤ p ∧ p < (ws.length : Int)) →
    ∃ ws', placeWord ws w ps = Except.ok ws' ∧ ws'.length = ws.length ∧
      ∀ n : Nat, n < ws.length →
        ws'[n]? = if (n : Int) ∈ ps then some w else ws[n]? := by
  induction ps with
  | nil =>
    intro ws _
    exact ⟨ws, rfl, rfl, by intro n _; simp⟩
  | cons p ps ih =>
    intro ws hrange
    obtain ⟨hp0, hplen⟩ := hrange p (List.mem_cons_self p ps)
    have hset : pySetIdx ws p w = Except.ok (ws.set p.toNat w) := by
      simp [pySetIdx, hp0, hplen]
    have hlen1 : (ws.set p.toNat w).length = ws.length := List.length_set ws p.toNat w
    obtain ⟨ws', hws', hlen', hchar⟩ := ih (ws.set p.toNat w)
      (fun q hq => by
        obtain ⟨h1, h2⟩ := hrange q (List.mem_cons_of_mem p hq)
        exact ⟨h1, by rw [hlen1]; exact h2⟩)
    refine ⟨ws', ?_, by rw [hlen', hlen1], ?_⟩
    · show foldlME _ ws (p :: ps) = Except.ok ws'
      rw [foldlME_cons, if_pos hplen, hset, ok_bind]
      exact hws'
    · intro n hn
      have hn1 : n < (ws.set p.toNat w).length := by rw [hlen1]; exact hn
      have hptn : p.toNat < ws.length := by
        have := Int.toNat_of_nonneg hp0
        omega
      rw [hchar n hn1]
      by_cases hmem : (n : Int) ∈ ps
      · rw [if_pos hmem, if_pos (List.mem_cons_of_mem p hmem)]
      · rw [if_neg hmem]
        by_cases heq : (n : Int) = p
        · have hnp : p.toNat = n := by omega
          rw [if_pos (by rw [heq]; exact List.mem_cons_self p ps), hnp,
            List.getElem?_set_self (by omega)]
        · have : ¬ ((n : Int) ∈ p :: ps) := by
            intro hc
            rcases List.mem_cons.mp hc with h | h
            · exact heq h
            · exact hmem h
          rw [if_neg this, List.getElem?_set_ne (by omega)]

theorem placeAll_exists (idx : List (String × List Int)) :
    ∀ ws : List String, (∀ e ∈ idx, ∀ p ∈ e.2, 0 ≤ p ∧ p < (ws.length : Int)) →
    ∃ ws', placeAll idx ws = Except.ok ws' ∧ ws'.length = ws.length := by
  induction idx with
  | nil => intro ws _; exact ⟨ws, rfl, rfl⟩
  | cons e es ih =>
    intro ws hrange
    obtain ⟨ws1, hws1, hlen1, _⟩ :=
      placeWord_ok e.1 e.2 ws (fun p hp => hrange e (List.mem_cons_self e es) p hp)
    obtain ⟨ws', hws', hlen'⟩ := ih ws1
      (fun e' he' p hp => by
        obtain ⟨h1, h2⟩ := hrange e' (List.mem_cons_of_mem e he') p hp
        exact ⟨h1, by rw [hlen1]; exact h2⟩)
    refine ⟨ws', ?_, by rw [hlen', hlen1]⟩
    show (placeWord ws e.1 e.2 >>= fun b => placeAll es b) = Except.ok ws'
    rw [hws1, ok_bind]
    exact hws'

theorem owner?_cons (e : String × List Int) (es : List (String × List Int)) (p : Int) :
    owner? (e :: es) p = if p ∈ e.2 then some e.1 else owner? es p := by
  by_cases h : p ∈ e.2
  · rw [if_pos h]
    unfold owner?
    rw [List.find?_cons_of_pos _ (by simpa using h)]
    rfl
  · rw [if_neg h]
    unfold owner?
    rw [List.find?_cons_of_neg _ (by simpa using h)]

theorem owner?_eq_none (es : List (String × List Int)) (p : Int)
    (h : ∀ e ∈ es, p ∉ e.2) : owner? es p = none := by
  unfold owner?
  rw [List.find?_eq_none.mpr (by intro e he; simpa using h e he)]
  rfl

theorem placeAll_char (idx : List (String × List Int))
    (hdisj : List.Pairwise (fun a b => ∀ p : Int, p ∈ a.2 → p ∉ b.2) idx) :
    ∀ ws : List String, (∀ e ∈ idx, ∀ p ∈ e.2, 0 ≤ p ∧ p < (ws.length : Int)) →
    ∃ ws', placeAll idx ws = Except.ok ws' ∧ ws'.length = ws.length ∧
      ∀ n : Nat, n < ws.length →
        ws'[n]? = match owner? idx (n : Int) with
          | some w => some w
          | none => ws[n]? := by
  induction idx with
  | nil =>
    intro ws _
    refine ⟨ws, rfl, rfl, by intro n _; simp [owner?]⟩
  | cons e es ih =>
    intro ws hrange
    obtain ⟨ws1, hws1, hlen1, hchar1⟩ :=
      placeWord_ok e.1 e.2 ws (fun p hp => hrange e (List.mem_cons_self e es) p hp)
    have hdisj' := (List.pairwise_cons.mp hdisj).2
    have hhead := (List.pairwise_cons.mp hdisj).1
    obtain ⟨ws', hws', hlen', hchar'⟩ := ih hdisj' ws1
      (fun e' he' p hp => by
        obtain ⟨h1, h2⟩ := hrange e' (List.mem_cons_of_mem e he') p hp
        exact ⟨h1, by rw [hlen1]; exact h2⟩)
    refine ⟨ws', ?_, by rw [hlen', hlen1], ?_⟩
    · show (placeWord ws e.1 e.2 >>= fun b => placeAll es b) = Except.ok ws'
      rw [hws1, ok_bind]
      exact hws'
    · intro n hn
      have hn1 : n < ws1.length := by rw [hlen1]; exact hn
      rw [hchar' n hn1, owner?_cons]
      by_cases hmem : (n : Int) ∈ e.2
      · have hnone : owner? es (n : Int) = none :=
          owner?_eq_none es _ (fun e' he' => hhead e' he' (n : Int) hmem)
        rw [hnone, if_pos hmem, hchar1 n hn, if_pos hmem]
      · rw [if_neg hmem, hchar1 n hn, if_neg hmem]

/-! Lemmas about joining and whitespace splitting. -/

theorem pyJoin_cons2 (sep w x : String) (ws : List String) :
    pyJoin sep (w :: x :: ws) = w ++ sep ++ pyJoin sep (x :: ws) := rfl

theorem joinData_cons2 (t t2 : List Char) (ts : List (List Char)) :
    joinData (t :: t2 :: ts) = t ++ ' ' :: joinData (t2 :: ts) := rfl

theorem pyJoin_space_data (ws : List String) :
    (pyJoin " " ws).data = joinData (ws.map String.data) := by
  induction ws with
  | nil => rfl
  | cons w ws ih =>
    cases ws with
    | nil => rfl
    | cons x ws' =>
      rw [pyJoin_cons2, List.map_cons, List.map_cons, joinData_cons2, String.data_append,
        String.data_append, ← List.map_cons, ← ih]
      simp

theorem splitAll_cons (c : Char) (cs : List Char) :
    splitAll (c :: cs) = splitStep c (splitAll cs) := rfl

theorem splitAll_ne_nil (cs : List Char) : splitAll cs ≠ [] := by
  induction cs with
  | nil => simp [splitAll]
  | cons c cs ih =>
    rw [splitAll_cons]
    unfold splitStep
    by_cases h : pyIsSpace c
    · simp [h]
    · rw [if_neg h]
      cases hs : splitAll cs with
      | nil => exact absurd hs ih
      | cons t ts => simp

theorem splitAll_space (cs : List Char) : splitAll (' ' :: cs) = [] :: splitAll cs := by
  rw [splitAll_cons]
  unfold splitStep
  rw [if_pos (by decide)]

theorem splitAll_append_token (w : List Char) (hw : ∀ c ∈ w, pyIsSpace c = false) :
    ∀ (cs : List Char) (t : List Char) (ts : List (List Char)),
      splitAll cs = t :: ts → splitAll (w ++ cs) = (w ++ t) :: ts := by
  induction w with
  | nil => intro cs t ts h; simpa using h
  | cons c w' ih =>
    intro cs t ts h
    have hc := hw c (List.mem_cons_self c w')
    have hw' : ∀ c ∈ w', pyIsSpace c = false := fun c hc => hw c (List.mem_cons_of_mem _ hc)
    rw [List.cons_append, splitAll_cons, ih hw' cs t ts h]
    unfold splitStep
    rw [if_neg (by simp [hc])]
    rfl

theorem splitAll_joinData (tks : List (List Char)) (hne : tks ≠ [])
    (hw : ∀ t ∈ tks, ∀ c ∈ t, pyIsSpace c = false) :
    splitAll (joinData tks) = tks := by
  induction tks with
  | nil => exact absurd rfl hne
  | cons t ts ih =>
    cases ts with
    | nil =>
      have h := splitAll_append_token t (hw t (List.mem_cons_self t [])) [] [] []
        (by simp [splitAll])
      simpa [joinData] using h
    | cons t2 ts2 =>
      have ihr : splitAll (joinData (t2 :: ts2)) = t2 :: ts2 :=
        ih (by simp) (fun t' ht' => hw t' (List.mem_cons_of_mem _ ht'))
      have hsp : splitAll (' ' :: joinData (t2 :: ts2)) = [] :: t2 :: ts2 := by
        rw [splitAll_space, ihr]
      have h := splitAll_append_token t (hw t (List.mem_cons_self t _))
        (' ' :: joinData (t2 :: ts2)) [] (t2 :: ts2) hsp
      rw [joinData_cons2]
      simpa using h

theorem mk_data (s : String) : String.mk s.data = s := rfl

theorem data_eq_nil_iff (s : String) : s.data = [] ↔ s = "" := by
  constructor
  · intro h
    have := congrArg String.mk h
    simpa [mk_data] using this
  · intro h
    rw [h]

theorem pySplitWS_join (slots : List String) (hne : slots ≠ [])
    (hw : ∀ s ∈ slots, ∀ c ∈ s.data, pyIsSpace c = false) :
    pySplitWS (pyJoin " " slots) = slots.filter (fun s => decide (s ≠ "")) := by
  unfold pySplitWS
  rw [pyJoin_space_data, splitAll_joinData (slots.map String.data) (by simpa using hne)
    (by intro t ht c hc
        obtain ⟨s, hs, rfl⟩ := List.mem_map.mp ht
        exact hw s hs c hc)]
  rw [List.filter_map, List.map_map]
  have hid : ∀ l : List String, l.map ((fun t => String.mk t) ∘ String.data) = l := by
    intro l
    induction l with
    | nil => rfl
    | cons s l ihl => rw [List.map_cons, Function.comp_apply, mk_data, ihl]
  rw [hid]
  apply List.filter_congr
  intro s _
  by_cases hs : s = ""
  · subst hs
    rfl
  · have hd : s.data ≠ [] := fun h => hs ((data_eq_nil_iff s).mp h)
    simp [hs, List.isEmpty_iff, hd]

/-! Lemmas about the no-multi-space and trimming properties. -/

theorem noDoubleSpace_cons2 (a b : Char) (rest : List Char) :
    noDoubleSpace (a :: b :: rest)
      = ((!(pyIsSpace a && pyIsSpace b)) && noDoubleSpace (b :: rest)) := rfl

theorem head?_mem {α : Type} (l : List α) (a : α) (h : l.head? = some a) : a ∈ l := by
  cases l with
  | nil => cases h
  | cons x xs =>
    rw [List.head?_cons, Option.some.injEq] at h
    rw [← h]
    exact List.mem_cons_self x xs

theorem getLast?_mem {α : Type} (l : List α) (a : α) (h : l.getLast? = some a) : a ∈ l := by
  induction l with
  | nil => cases h
  | cons x xs ih =>
    cases xs with
    | nil =>
      simp only [List.getLast?_singleton, Option.some.injEq] at h
      rw [← h]
      exact List.mem_cons_self x []
    | cons y ys =>
      rw [List.getLast?_cons_cons] at h
      exact List.mem_cons_of_mem x (ih h)

theorem noDoubleSpace_of_nospace (t : List Char) (h : ∀ c ∈ t, pyIsSpace c = false) :
    noDoubleSpace t = true := by
  induction t with
  | nil => rfl
  | cons a t ih =>
    cases t with
    | nil => rfl
    | cons b t' =>
      rw [noDoubleSpace_cons2, h a (List.mem_cons_self a _),
        ih (fun c hc => h c (List.mem_cons_of_mem a hc))]
      rfl

theorem noDoubleSpace_append (xs ys : List Char) (hx : noDoubleSpace xs = true)
    (hy : noDoubleSpace ys = true)
    (hmid : ∀ a b, xs.getLast? = some a → ys.head? = some b →
      ¬(pyIsSpace a = true ∧ pyIsSpace b = true)) :
    noDoubleSpace (xs ++ ys) = true := by
  induction xs with
  | nil => simpa using hy
  | cons a xs ih =>
    cases xs with
    | nil =>
      cases ys with
      | nil => simpa using hx
      | cons b ys' =>
        have hab := hmid a b (by simp) (by simp)
        rw [List.singleton_append, noDoubleSpace_cons2, hy]
        cases hpa : pyIsSpace a <;> cases hpb : pyIsSpace b <;> simp_all
    | cons a2 xs' =>
      rw [noDoubleSpace_cons2, Bool.and_eq_true] at hx
      obtain ⟨h1, h2⟩ := hx
      have ih' := ih h2 (fun c d hc hd => hmid c d (by rw [List.getLast?_cons_cons]; exact hc) hd)
      rw [List.cons_append, List.cons_append, noDoubleSpace_cons2, h1]
      rw [List.cons_append] at ih'
      rw [ih']
      rfl

theorem joinData_ne_nil (t : List Char) (ts : List (List Char)) (h : ∀ u ∈ t :: ts, u ≠ []) :
    joinData (t :: ts) ≠ [] := by
  cases ts with
  | nil => exact h t (List.mem_cons_self t [])
  | cons t2 ts2 =>
    rw [joinData_cons2]
    intro hc
    have := List.append_eq_nil.mp hc
    cases this.2

theorem joinData_props (tks : List (List Char)) (hne : ∀ t ∈ tks, t ≠ [])
    (hsp : ∀ t ∈ tks, ∀ c ∈ t, pyIsSpace c = false) :
    noDoubleSpace (joinData tks) = true
    ∧ (∀ c, (joinData tks).head? = some c → pyIsSpace c = false)
    ∧ (∀ c, (joinData tks).getLast? = some c → pyIsSpace c = false) := by
  induction tks with
  | nil =>
    refine ⟨rfl, ?_, ?_⟩ <;> exact fun c h => by cases h
  | cons t ts ih =>
    cases ts with
    | nil =>
      refine ⟨noDoubleSpace_of_nospace t (hsp t (List.mem_cons_self t _)), ?_, ?_⟩
      · intro c h
        exact hsp t (List.mem_cons_self t _) c (head?_mem t c h)
      · intro c h
        exact hsp t (List.mem_cons_self t _) c (getLast?_mem t c h)
    | cons t2 ts2 =>
      obtain ⟨ihnd, ihhd, ihlast⟩ := ih
        (fun u hu => hne u (List.mem_cons_of_mem t hu))
        (fun u hu => hsp u (List.mem_cons_of_mem t hu))
      have hjne : joinData (t2 :: ts2) ≠ [] :=
        joinData_ne_nil t2 ts2 (fun u hu => hne u (List.mem_cons_of_mem t hu))
      obtain ⟨r0, rs, hr⟩ : ∃ r0 rs, joinData (t2 :: ts2) = r0 :: rs := by
        cases hj : joinData (t2 :: ts2) with
        | nil => exact absurd hj hjne
        | cons r0 rs => exact ⟨r0, rs, rfl⟩
      have hr0 : pyIsSpace r0 = false := ihhd r0 (by rw [hr]; rfl)
      have htne : t ≠ [] := hne t (List.mem_cons_self t _)
      have htsp := hsp t (List.mem_cons_self t _)
      rw [joinData_cons2]
      refine ⟨?_, ?_, ?_⟩
      · apply noDoubleSpace_append t (' ' :: joinData (t2 :: ts2))
          (noDoubleSpace_of_nospace t htsp)
        · rw [hr, noDoubleSpace_cons2, hr0]
          rw [hr] at ihnd
          rw [ihnd]
          rfl
        · intro a b ha _
          intro hcon
          rw [htsp a (getLast?_mem t a ha)] at hcon
          exact Bool.false_ne_true hcon.1
      · intro c h
        obtain ⟨x, xs, rfl⟩ : ∃ x xs, t = x :: xs := by
          cases t with
          | nil => exact absurd rfl htne
          | cons x xs => exact ⟨x, xs, rfl⟩
        rw [List.cons_append, List.head?_cons] at h
        injection h with h
        rw [← h]
        exact htsp x (List.mem_cons_self x xs)
      · intro c h
        rw [List.getLast?_append, hr, List.getLast?_cons_cons,
          List.getLast?_eq_getLast (r0 :: rs) (by simp)] at h
        injection h with h
        rw [← h]
        apply ihlast
        rw [hr]
        exact List.getLast?_eq_getLast (r0 :: rs) (by simp)

theorem filter_map_getD (g : Nat → Option String) (l : List Nat)
    (hg : ∀ n ∈ l, ∀ w, g n = some w → w ≠ "") :
    (l.map (fun n => (g n).getD "")).filter (fun s => decide (s ≠ "")) = l.filterMap g := by
  induction l with
  | nil => rfl
  | cons n l ih =>
    have ih' := ih (fun n' hn' => hg n' (List.mem_cons_of_mem n hn'))
    rw [List.map_cons, List.filter_cons, List.filterMap_cons]
    cases hgn : g n with
    | none =>
      simp only [hgn, Option.getD_none]
      rw [if_neg (by simp)]
      exact ih'
    | some w =>
      have hw := hg n (List.mem_cons_self n l) w hgn
      simp only [hgn, Option.getD_some]
      rw [if_pos (by simpa using hw), ih']

theorem owner?_mem (idx : List (String × List Int)) (p : Int) (w : String)
    (h : owner? idx p = some w) : ∃ e ∈ idx, e.1 = w := by
  unfold owner? at h
  cases hf : idx.find? (fun e => e.2.contains p) with
  | none => rw [hf] at h; cases h
  | some e =>
    rw [hf] at h
    injection h with h
    exact ⟨e, List.mem_of_find?_eq_some hf, h⟩

theorem reconstruct_abstract_eq (idx : List (String × List Int)) (m : Int) (slots : List String)
    (hne : idx ≠ []) (hmax : maxPosition idx = Except.ok m)
    (hplace : placeAll idx (List.replicate (m + 1).toNat "") = Except.ok slots) :
    reconstruct_abstract (some idx) = Except.ok (pyJoin " " (pySplitWS (pyJoin " " slots))) := by
  have hie : idx.isEmpty = false := by
    cases idx with
    | nil => exact absurd rfl hne
    | cons e es => rfl
  simp only [reconstruct_abstract, hie, Bool.false_eq_true, if_false, hmax, ok_bind, hplace]

/-- C1 — for every well-formed inverted index (non-empty position lists of
non-negative, pairwise non-overlapping positions, whose words are
non-empty and whitespace-free) with maximum position `m`,
`reconstruct_abstract` succeeds and returns exactly the words of
positions `0..m` in increasing position order joined by single spaces;
the result has no two adjacent whitespace characters and neither leading
nor trailing whitespace.  The empty index and the `None`-equivalent input
both yield the empty string. -/
theorem claim_C1_reconstruct :
    (∀ (idx : List (String × List Int)) (m : Int),
      maxPosition idx = Except.ok m →
      IndexWF idx →
      List.Pairwise (fun a b => ∀ p ∈ a.2, p ∉ b.2) idx →
      (∀ e ∈ idx, e.1 ≠ "" ∧ ∀ c ∈ e.1.data, pyIsSpace c = false) →
      ∃ r, reconstruct_abstract (some idx) = Except.ok r
        ∧ r = pyJoin " "
            ((List.range (m + 1).toNat).filterMap (fun (n : Nat) => owner? idx (n : Int)))
        ∧ noDoubleSpace r.data = true
        ∧ (∀ c, r.data.head? = some c → pyIsSpace c = false)
        ∧ (∀ c, r.data.getLast? = some c → pyIsSpace c = false))
    ∧ reconstruct_abstract (some []) = Except.ok ""
    ∧ reconstruct_abstract none = Except.ok "" := by
  refine ⟨?_, rfl, rfl⟩
  intro idx m hmax hwf hdisj hwords
  obtain ⟨hnel, hpos⟩ := hwf
  have hne : idx ≠ [] := by
    intro h
    subst h
    simp [maxPosition] at hmax
  obtain ⟨m', hm', hbound'⟩ := maxPosition_ok idx hne hnel
  rw [hmax] at hm'
  injection hm' with hm'
  subst hm'
  have hbound := hbound'
  obtain ⟨e0, he0⟩ := List.exists_mem_of_ne_nil idx hne
  obtain ⟨p0, hp0⟩ := List.exists_mem_of_ne_nil e0.2 (hnel e0 he0)
  have hm0 : 0 ≤ m := le_trans (hpos e0 he0 p0 hp0) (hbound e0 he0 p0 hp0)
  have hLint : (((m + 1).toNat : Nat) : Int) = m + 1 := Int.toNat_of_nonneg (by omega)
  have hinitlen : (List.replicate (m + 1).toNat "").length = (m + 1).toNat :=
    List.length_replicate _ ""
  have hrange : ∀ e ∈ idx, ∀ p ∈ e.2,
      0 ≤ p ∧ p < ((List.replicate (m + 1).toNat "").length : Int) := by
    intro e he p hp
    refine ⟨hpos e he p hp, ?_⟩
    rw [hinitlen]
    have := hbound e he p hp
    omega
  obtain ⟨slots, hslots, hslotslen, hchar⟩ :=
    placeAll_char idx hdisj (List.replicate (m + 1).toNat "") hrange
  have hslots_eq : slots
      = (List.range (m + 1).toNat).map (fun (n : Nat) => (owner? idx (n : Int)).getD "") := by
    apply List.ext_getElem
    · rw [hslotslen, hinitlen, List.length_map, List.length_range]
    · intro n h1 h2
      have hnL : n < (m + 1).toNat := by
        rwa [List.length_map, List.length_range] at h2
      have h1' : n < (List.replicate (m + 1).toNat "").length := by
        rw [hinitlen]
        exact hnL
      have hc := hchar n h1'
      have hrepl : (List.replicate (m + 1).toNat "")[n]? = some "" := by
        rw [List.getElem?_replicate, if_pos hnL]
      rw [List.getElem?_eq_getElem h1, hrepl] at hc
      rw [List.getElem_map, List.getElem_range]
      cases ho : owner? idx (n : Int) with
      | none =>
        rw [ho] at hc
        injection hc with hc
      | some w =>
        rw [ho] at hc
        injection hc with hc
  have hwords_g : ∀ n ∈ List.range (m + 1).toNat, ∀ w,
      owner? idx (n : Int) = some w → w ≠ "" := by
    intro n _ w hw
    obtain ⟨e, he, hew⟩ := owner?_mem idx _ w hw
    rw [← hew]
    exact (hwords e he).1
  have hfilter : slots.filter (fun s => decide (s ≠ ""))
      = (List.range (m + 1).toNat).filterMap (fun (n : Nat) => owner? idx (n : Int)) := by
    rw [hslots_eq]
    exact filter_map_getD _ _ hwords_g
  have hsl_sp : ∀ s ∈ slots, ∀ c ∈ s.data, pyIsSpace c = false := by
    rw [hslots_eq]
    intro s hs c hc
    obtain ⟨n, _, rfl⟩ := List.mem_map.mp hs
    cases ho : owner? idx (n : Int) with
    | none =>
      rw [ho] at hc
      cases hc
    | some w =>
      rw [ho] at hc
      obtain ⟨e, he, hew⟩ := owner?_mem idx _ w ho
      rw [← hew] at hc
      exact (hwords e he).2 c hc
  have hslots_ne : slots ≠ [] := by
    rw [hslots_eq]
    have hL0 : (m + 1).toNat ≠ 0 := by omega
    simp [List.map_eq_nil_iff, List.range_eq_nil, hL0]
  have hre : reconstruct_abstract (some idx)
      = Except.ok (pyJoin " " (pySplitWS (pyJoin " " slots))) :=
    reconstruct_abstract_eq idx m slots hne hmax hslots
  have hwords_tk : ∀ w ∈ (List.range (m + 1).toNat).filterMap (fun (n : Nat) => owner? idx (n : Int)),
      w ≠ "" ∧ ∀ c ∈ w.data, pyIsSpace c = false := by
    intro w hw
    obtain ⟨n, hn, hg⟩ := List.mem_filterMap.mp hw
    obtain ⟨e, he, hew⟩ := owner?_mem idx _ w hg
    rw [← hew]
    exact hwords e he
  have hprops := joinData_props
    (((List.range (m + 1).toNat).filterMap (fun (n : Nat) => owner? idx (n : Int))).map String.data)
    (by
      intro t ht
      obtain ⟨w, hwmem, rfl⟩ := List.mem_map.mp ht
      intro hc
      exact (hwords_tk w hwmem).1 ((data_eq_nil_iff w).mp hc))
    (by
      intro t ht c hc
      obtain ⟨w, hwmem, rfl⟩ := List.mem_map.mp ht
      exact (hwords_tk w hwmem).2 c hc)
  refine ⟨pyJoin " " (pySplitWS (pyJoin " " slots)), hre, ?_, ?_, ?_, ?_⟩
  · rw [pySplitWS_join slots hslots_ne hsl_sp, hfilter]
  all_goals
    rw [pySplitWS_join slots hslots_ne hsl_sp, hfilter, pyJoin_space_data]
  · exact hprops.1
  · exact hprops.2.1
  · exact hprops.2.2

/-- C1 witness. -/
theorem claim_C1_witness :
    (∃ r, reconstruct_abstract (some [("This", [0]), ("is", [1]), ("a", [2]), ("test", [3])])
        = Except.ok r
      ∧ r = pyJoin " " ((List.range ((3 : Int) + 1).toNat).filterMap
          (fun (n : Nat) => owner? [("This", [0]), ("is", [1]), ("a", [2]), ("test", [3])]
            (n : Int)))
      ∧ noDoubleSpace r.data = true
      ∧ (∀ c, r.data.head? = some c → pyIsSpace c = false)
      ∧ (∀ c, r.data.getLast? = some c → pyIsSpace c = false))
    ∧ reconstruct_abstract (some [("This", [0]), ("is", [1]), ("a", [2]), ("test", [3])])
        = Except.ok "This is a test" :=
  ⟨claim_C1_reconstruct.1 [("This", [0]), ("is", [1]), ("a", [2]), ("test", [3])] 3
    (by rfl) ⟨by decide, by decide⟩ (by decide) (by decide), by rfl⟩

/-- C10 — `reconstruct_abstract` is total on every non-empty well-formed
index (non-empty position lists, all positions non-negative): every
position is then strictly below the allocated length `max + 1`.  With a
negative position the guard `position < len(words)` passes while the
allocation is empty, and the assignment raises `IndexError`: the single
word at position list `[-3]` allocates `[""] * (-2) = []`, passes the
bound check `-3 < 0`, and fails the negative-index assignment. -/
theorem claim_C10_negative_positions :
    (∀ idx : List (String × List Int), idx ≠ [] → IndexWF idx →
      ∃ s, reconstruct_abstract (some idx) = Except.ok s)
    ∧ reconstruct_abstract (some [("w", [-3])]) = Except.error PyErr.indexError := by
  constructor
  · intro idx hne hwf
    obtain ⟨hnel, hpos⟩ := hwf
    obtain ⟨m, hmax, hbound⟩ := maxPosition_ok idx hne hnel
    obtain ⟨e0, he0⟩ := List.exists_mem_of_ne_nil idx hne
    obtain ⟨p0, hp0⟩ := List.exists_mem_of_ne_nil e0.2 (hnel e0 he0)
    have hm0 : 0 ≤ m := le_trans (hpos e0 he0 p0 hp0) (hbound e0 he0 p0 hp0)
    have hinitlen : (List.replicate (m + 1).toNat "").length = (m + 1).toNat :=
      List.length_replicate _ ""
    obtain ⟨slots, hslots, _⟩ := placeAll_exists idx (List.replicate (m + 1).toNat "")
      (by
        intro e he p hp
        refine ⟨hpos e he p hp, ?_⟩
        rw [hinitlen]
        have h1 := hbound e he p hp
        have h2 : (((m + 1).toNat : Nat) : Int) = m + 1 := Int.toNat_of_nonneg (by omega)
        omega)
    exact ⟨pyJoin " " (pySplitWS (pyJoin " " slots)),
      reconstruct_abstract_eq idx m slots hne hmax hslots⟩
  · rfl

/-- C10 witness. -/
theorem claim_C10_witness :
    ∃ s, reconstruct_abstract (some [("hello", [0]), ("world", [1])]) = Except.ok s :=
  claim_C10_negative_positions.1 [("hello", [0]), ("world", [1])] (by decide) ⟨by decide, by decide⟩

/-! Lemmas on the response-formatter bodies for the error-handling claim. -/

theorem bind_ok_shape {α : Type} (x : Except PyErr α) (f : α → Except PyErr String)
    (P : String → Prop) (hf : ∀ a s, f a = Except.ok s → P s) :
    ∀ s, x >>= f = Except.ok s → P s := by
  cases x with
  | error e => intro s h; cases h
  | ok a =>
    intro s h
    rw [ok_bind] at h
    exact hf a s h

theorem works_params_error_msg (query : Option String) (limit : Int) (sort_by : String)
    (ft fy fa : Option String) (fc : Option Bool) (email : Option String) (msg : String)
    (h : search_works_params query limit sort_by ft fy fa fc email = Except.error msg) :
    msg = worksValidationMsg := by
  revert h
  simp only [search_works_params]
  split
  · intro h; cases h
  · split
    · intro h
      injection h with h
      exact h.symm
    · intro h; cases h

theorem formatWorksBody_ok_shape (limit : Int) (data : JVal) :
    ∀ s, formatWorksBody limit data = Except.ok s →
      s = "No works found matching your search criteria." ∨ ∃ r, s = "Found " ++ r := by
  unfold formatWorksBody
  refine bind_ok_shape _ _ _ ?_
  intro works s
  by_cases ht : jTruthy works = false
  · rw [if_pos ht]
    intro h
    injection h with h
    exact Or.inl h.symm
  · rw [if_neg ht]
    revert s
    refine bind_ok_shape _ _ _ ?_
    intro n
    refine bind_ok_shape _ _ _ ?_
    intro items
    refine bind_ok_shape _ _ _ ?_
    intro pieces s h
    injection h with h
    exact Or.inr ⟨_, h.symm⟩

theorem formatAuthorsBody_ok_shape (limit : Int) (data : JVal) :
    ∀ s, formatAuthorsBody limit data = Except.ok s →
      s = "No authors found matching your search criteria." ∨ ∃ r, s = "Found " ++ r := by
  unfold formatAuthorsBody
  refine bind_ok_shape _ _ _ ?_
  intro authors s
  by_cases ht : jTruthy authors = false
  · rw [if_pos ht]
    intro h
    injection h with h
    exact Or.inl h.symm
  · rw [if_neg ht]
    revert s
    refine bind_ok_shape _ _ _ ?_
    intro n
    refine bind_ok_shape _ _ _ ?_
    intro items
    refine bind_ok_shape _ _ _ ?_
    intro pieces s h
    injection h with h
    exact Or.inr ⟨_, h.symm⟩

set_option maxHeartbeats 8000000 in
theorem formatDetailBody_ok_shape (work : JVal) :
    ∀ s, formatDetailBody work = Except.ok s → ∃ r, s = "**" ++ r := by
  unfold formatDetailBody
  iterate 14 (refine bind_ok_shape _ _ _ ?_; intro _; beta_reduce)
  intro s h
  rw [pure_eq_ok] at h
  exact ⟨_, (Except.ok.inj h).symm⟩

/-- C9 — each of the three operations maps every service outcome
(transport/parsing exception, non-200 status, empty result set, arbitrary
parsed record) to one of its documented result strings — the embedded
operations are total functions into `String`, so no exception escapes the
operation boundary — and any caught exception, whether raised in
transport or while formatting, is reported as a string carrying the fixed
marker `Error accessing OpenAlex API: `. -/
theorem claim_C9_operations_return_strings :
    (∀ (query : Option String) (limit : Int) (sort_by : String)
      (ft fy fa : Option String) (fc : Option Bool) (email : Option String) (resp : Resp),
      search_works_openalex query limit sort_by ft fy fa fc email resp = worksValidationMsg
      ∨ (∃ r, search_works_openalex query limit sort_by ft fy fa fc email resp
          = "Error accessing OpenAlex API: " ++ r)
      ∨ (∃ (st : Int) (b : String), search_works_openalex query limit sort_by ft fy fa fc email resp
          = "Error searching OpenAlex: HTTP " ++ toString st ++ " - " ++ b)
      ∨ search_works_openalex query limit sort_by ft fy fa fc email resp
          = "No works found matching your search criteria."
      ∨ (∃ r, search_works_openalex query limit sort_by ft fy fa fc email resp
          = "Found " ++ r)) ∧
    (∀ (work_id : String) (email : Option String) (resp : Resp),
      (∃ r, get_work_details_openalex work_id email resp
          = "Error accessing OpenAlex API: " ++ r)
      ∨ get_work_details_openalex work_id email resp
          = "Work not found. Please check the work ID or DOI."
      ∨ (∃ (st : Int) (b : String), get_work_details_openalex work_id email resp
          = "Error retrieving work details: HTTP " ++ toString st ++ " - " ++ b)
      ∨ (∃ r, get_work_details_openalex work_id email resp = "**" ++ r)) ∧
    (∀ (query : String) (limit : Int) (sort_by : String) (fc : Option Bool)
      (email : Option String) (resp : Resp),
      (∃ r, search_authors_openalex query limit sort_by fc email resp
          = "Error accessing OpenAlex API: " ++ r)
      ∨ (∃ (st : Int) (b : String), search_authors_openalex query limit sort_by fc email resp
          = "Error searching OpenAlex: HTTP " ++ toString st ++ " - " ++ b)
      ∨ search_authors_openalex query limit sort_by fc email resp
          = "No authors found matching your search criteria."
      ∨ (∃ r, search_authors_openalex query limit sort_by fc email resp = "Found " ++ r)) ∧
    (∀ (query : Option String) (limit : Int) (sort_by : String)
      (ft fy fa : Option String) (fc : Option Bool) (email : Option String)
      (msg : String) (ps : Params),
      search_works_params query limit sort_by ft fy fa fc email = Except.ok ps →
      search_works_openalex query limit sort_by ft fy fa fc email (Resp.raised msg)
        = "Error accessing OpenAlex API: " ++ msg) ∧
    (∀ (work_id : String) (email : Option String) (msg : String),
      get_work_details_openalex work_id email (Resp.raised msg)
        = "Error accessing OpenAlex API: " ++ msg) ∧
    (∀ (query : String) (limit : Int) (sort_by : String) (fc : Option Bool)
      (email : Option String) (msg : String),
      search_authors_openalex query limit sort_by fc email (Resp.raised msg)
        = "Error accessing OpenAlex API: " ++ msg) ∧
    (∀ (query : Option String) (limit : Int) (sort_by : String)
      (ft fy fa : Option String) (fc : Option Bool) (email : Option String)
      (data : JVal) (e : PyErr) (ps : Params),
      search_works_params query limit sort_by ft fy fa fc email = Except.ok ps →
      formatWorksBody (clampLimit limit) data = Except.error e →
      search_works_openalex query limit sort_by ft fy fa fc email (Resp.success data)
        = "Error accessing OpenAlex API: " ++ pyErrStr e) ∧
    (∀ (work_id : String) (email : Option String) (work : JVal) (e : PyErr),
      formatDetailBody work = Except.error e →
      get_work_details_openalex work_id email (Resp.success work)
        = "Error accessing OpenAlex API: " ++ pyErrStr e) ∧
    (∀ (query : String) (limit : Int) (sort_by : String) (fc : Option Bool)
      (email : Option String) (data : JVal) (e : PyErr),
      formatAuthorsBody (clampLimit limit) data = Except.error e →
      search_authors_openalex query limit sort_by fc email (Resp.success data)
        = "Error accessing OpenAlex API: " ++ pyErrStr e) := by
  refine ⟨?_, ?_, ?_, ?_, ?_, ?_, ?_, ?_, ?_⟩
  · intro query limit sort_by ft fy fa fc email resp
    cases hp : search_works_params query limit sort_by ft fy fa fc email with
    | error msg =>
      left
      rw [works_params_error_msg _ _ _ _ _ _ _ _ _ hp] at hp
      simp only [search_works_openalex, hp]
    | ok ps =>
      cases resp with
      | raised msg =>
        right; left
        exact ⟨msg, by simp only [search_works_openalex, hp]; rfl⟩
      | failure st b =>
        right; right; left
        exact ⟨st, b, by simp only [search_works_openalex, hp]⟩
      | success data =>
        cases hb : formatWorksBody (clampLimit limit) data with
        | error e =>
          right; left
          exact ⟨pyErrStr e, by simp only [search_works_openalex, hp, hb]; rfl⟩
        | ok s =>
          have hop : search_works_openalex query limit sort_by ft fy fa fc email
              (Resp.success data) = s := by simp only [search_works_openalex, hp, hb]
          rcases formatWorksBody_ok_shape (clampLimit limit) data s hb with h | ⟨r, hr⟩
          · right; right; right; left
            rw [hop, h]
          · right; right; right; right
            exact ⟨r, by rw [hop, hr]⟩
  · intro work_id email resp
    cases resp with
    | raised msg => exact Or.inl ⟨msg, rfl⟩
    | failure st b =>
      by_cases h404 : st = 404
      · right; left
        simp only [get_work_details_openalex, h404, if_pos]
      · right; right; left
        exact ⟨st, b, by simp only [get_work_details_openalex, if_neg h404]⟩
    | success work =>
      cases hb : formatDetailBody work with
      | error e =>
        left
        exact ⟨pyErrStr e, by simp only [get_work_details_openalex, hb]; rfl⟩
      | ok s =>
        obtain ⟨r, hr⟩ := formatDetailBody_ok_shape work s hb
        right; right; right
        refine ⟨r, ?_⟩
        simp only [get_work_details_openalex, hb]
        exact hr
  · intro query limit sort_by fc email resp
    cases resp with
    | raised msg => exact Or.inl ⟨msg, rfl⟩
    | failure st b => exact Or.inr (Or.inl ⟨st, b, rfl⟩)
    | success data =>
      cases hb : formatAuthorsBody (clampLimit limit) data with
      | error e =>
        left
        exact ⟨pyErrStr e, by simp only [search_authors_openalex, hb]; rfl⟩
      | ok s =>
        have hop : search_authors_openalex query limit sort_by fc email
            (Resp.success data) = s := by simp only [search_authors_openalex, hb]
        rcases formatAuthorsBody_ok_shape (clampLimit limit) data s hb with h | ⟨r, hr⟩
        · right; right; left
          rw [hop, h]
        · right; right; right
          exact ⟨r, by rw [hop, hr]⟩
  · intro query limit sort_by ft fy fa fc email msg ps hp
    simp only [search_works_openalex, hp]
    rfl
  · intro work_id email msg
    rfl
  · intro query limit sort_by fc email msg
    rfl
  · intro query limit sort_by ft fy fa fc email data e ps hp hb
    simp only [search_works_openalex, hp, hb]
    rfl
  · intro work_id email work e hb
    simp only [get_work_details_openalex, hb]
    rfl
  · intro query limit sort_by fc email data e hb
    simp only [search_authors_openalex, hb]
    rfl

/-- C9 witness. -/
theorem claim_C9_witness :
    search_works_openalex (some "ml") 10 "relevance_score:desc" none none none none none
      (Resp.raised "boom") = "Error accessing OpenAlex API: " ++ "boom" :=
  claim_C9_operations_return_strings.2.2.2.1 (some "ml") 10 "relevance_score:desc"
    none none none none none "boom"
    [("search", ParamVal.str "ml"), ("per-page", ParamVal.int 10)] (by rfl)

end OpenAlex
